import Mathlib

/-!
Verification of the data-analysis engine in src/src/lib/dataAnalysis.ts
(class DataAnalysisEngine).

Modelling conventions for the shallow embedding:

* JavaScript cell values are the closed sum `Value` (number / string /
  boolean / null).  A record (one dataset row) is the ordered list of its
  fields, as JavaScript objects preserve insertion order; a missing field
  (JS `undefined`) is an absent key, i.e. `getField` returns `none`.
* JavaScript numbers are modelled as exact rationals `ℚ`.  The float value
  NaN is modelled as `none` in `Option ℚ` wherever it can arise
  (`Number(v)` coercions, degenerate divisions).  Derived real-valued
  quantities that involve `Math.sqrt` (Pearson correlation, skewness) are
  expressed over `ℝ`; their degenerate branches (`denominator === 0`,
  `std == 0`) are kept exactly as in the source.
* `Date.parse` / `new Date` are host APIs, not part of the repository; they
  are abstracted as the `Host` parameter threaded through the engine.
* Presentation-only artifacts (`toFixed`/`toLocaleDateString` label strings,
  the per-chart `insights` string arrays, and insight `description` /
  `recommendation` texts) are omitted from the chart/insight structures:
  no verified property reads them.  All numeric payloads are kept.
* JavaScript's stable `Array.prototype.sort(cmp)` is modelled by
  `List.insertionSort r` with `r a b := cmp a b ≤ 0`, which performs the
  same stable insertion (ties keep their original order).
-/

namespace DataAnalysis

/-- A JavaScript cell value: number, string, boolean or null. -/
inductive Value : Type
  | vNull : Value
  | vBool : Bool → Value
  | vNum : ℚ → Value
  | vStr : String → Value
deriving DecidableEq

open Value

/-- One dataset row: a JavaScript object, i.e. an insertion-ordered list of
(field name, value) pairs. -/
abbrev Row : Type := List (String × Value)

/-- `row[k]` : first binding of key `k`; `none` models JS `undefined`. -/
def getField (r : Row) (k : String) : Option Value :=
  (r.find? (fun p => p.1 == k)).map (·.2)

/-- Digit-string to natural number; `none` if empty or any non-digit. -/
def parseNatDigits (cs : List Char) : Option ℕ :=
  match cs with
  | [] => none
  | _ => cs.foldl
      (fun acc c => acc.bind fun n =>
        if c.isDigit then some (10 * n + (c.toNat - 48)) else none)
      (some 0)

/-- Both-ends whitespace trim on a character list (the standard library's
`String.trim` is not kernel-reducible, so the JS string operations are
modelled structurally over `List Char`). -/
def trimChars (cs : List Char) : List Char :=
  ((cs.dropWhile Char.isWhitespace).reverse.dropWhile Char.isWhitespace).reverse

/-- JS `s.trim()`. -/
def jsTrim (s : String) : String :=
  String.mk (trimChars s.toList)

/-- JS `s.split(c)` for a one-character separator. -/
def jsSplit (c : Char) (s : String) : List String :=
  (s.toList.splitOn c).map String.mk

/-- JS `Number(s)` on a string, restricted to plain decimal notation
(optional sign, digits, optional fraction); whitespace-trimmed empty
string coerces to 0.  Exponent/hex/Infinity forms are not modelled (they
do not occur in any verified property).  `none` models NaN. -/
def strToNumber (s : String) : Option ℚ :=
  let t := trimChars s.toList
  if t = [] then some 0
  else
    let sign : ℚ := if t.head? = some '-' then -1 else 1
    let body := if t.head? = some '-' ∨ t.head? = some '+' then t.drop 1 else t
    match body.splitOn '.' with
    | [ip] => (parseNatDigits ip).map (fun n => sign * (n : ℚ))
    | [ip, fp] =>
      if ip = [] ∧ fp = [] then none
      else
        let ipv : Option ℕ := if ip = [] then some 0 else parseNatDigits ip
        let fpv : Option ℕ := if fp = [] then some 0 else parseNatDigits fp
        match ipv, fpv with
        | some i, some f =>
            some (sign * ((i : ℚ) + (f : ℚ) / ((10 : ℚ) ^ fp.length)))
        | _, _ => none
    | _ => none

/-- JS `Number(v)` coercion; `none` models NaN.
`Number(null) = 0`, `Number(true) = 1`, `Number(false) = 0`. -/
def toNumber : Value → Option ℚ
  | vNull => some 0
  | vBool b => some (if b then 1 else 0)
  | vNum q => some q
  | vStr s => strToNumber s

/-- JS `Number(row[k])`: a missing field (`undefined`) coerces to NaN. -/
def fieldNumber (r : Row) (k : String) : Option ℚ :=
  (getField r k).bind toNumber

/-- JS truthiness of `row[k]` (`undefined`, `null`, `false`, `0`, `""` are
falsy). -/
def truthy : Option Value → Bool
  | none => false
  | some vNull => false
  | some (vBool b) => b
  | some (vNum q) => q != 0
  | some (vStr s) => s != ""

/-- JS `String(v)`.  Number formatting is modelled faithfully for integers;
non-integral rationals use their canonical `num/den` form (only used as
grouping keys, where injectivity is what matters). -/
def jsString : Value → String
  | vNull => "null"
  | vBool true => "true"
  | vBool false => "false"
  | vStr s => s
  | vNum q => if q.den = 1 then toString q.num else toString q

/-- `Math.ceil(Math.sqrt(n))` for a natural `n`. -/
def ceilSqrt (n : ℕ) : ℕ :=
  if Nat.sqrt n * Nat.sqrt n = n then Nat.sqrt n else Nat.sqrt n + 1

/-- `Math.min(...values)` on a nonempty list (head as seed). -/
def listMin : List ℚ → ℚ
  | [] => 0
  | x :: xs => xs.foldl min x

/-- `Math.max(...values)` on a nonempty list (head as seed). -/
def listMax : List ℚ → ℚ
  | [] => 0
  | x :: xs => xs.foldl max x

/-- All ordered pairs `(l[i], l[j])` with `i < j`, in the nested-loop order
`for i; for j > i` used by the source. -/
def pairsAfter {α : Type} : List α → List (α × α)
  | [] => []
  | x :: xs => xs.map (fun y => (x, y)) ++ pairsAfter xs

/-- `x || 0` for a coerced number (NaN and 0 both give 0). -/
def orZero : Option ℚ → ℚ
  | none => 0
  | some q => q

/-- The host environment's date facilities (JS `Date` is a browser API, not
part of the repository): `isDate v` models `!isNaN(Date.parse(String(v)))`,
`dateVal v` models `new Date(v).getTime()` with `none` for an invalid date. -/
structure Host where
  isDate : Value → Bool
  dateVal : Value → Option ℚ

/-- The five inferred column types. -/
inductive ColType : Type
  | numeric | categorical | datetime | boolean | text
deriving DecidableEq

/-- Predicate of the boolean check:
`typeof v === 'boolean' || v === 'true' || v === 'false' || v === 0 || v === 1`. -/
def isBooleanLike : Value → Bool
  | vBool _ => true
  | vStr s => s == "true" || s == "false"
  | vNum q => q == 0 || q == 1
  | vNull => false

/-- Predicate of the numeric check:
`!isNaN(Number(v)) && v !== '' && v !== null`. -/
def isNumericLike (v : Value) : Bool :=
  (toNumber v).isSome && v != vStr "" && v != vNull

/-- `detectColumnType` (dataAnalysis.ts lines 413-433), verbatim rule
cascade.  The thresholds are the source's strict comparisons
`count > values.length * 0.8` and `unique <= Math.min(50, length * 0.5)`,
carried out in exact rational arithmetic. -/
def detectColumnType (host : Host) (values : List Value) : ColType :=
  if values.length = 0 then .text
  else if ((values.filter isBooleanLike).length : ℚ) > (values.length : ℚ) * (8/10) then .boolean
  else if ((values.filter isNumericLike).length : ℚ) > (values.length : ℚ) * (8/10) then .numeric
  else if ((values.filter host.isDate).length : ℚ) > (values.length : ℚ) * (8/10) then .datetime
  else if (values.dedup.length : ℚ) ≤ min 50 ((values.length : ℚ) * (1/2)) then .categorical
  else .text

/-- The type-inference rules exactly as claim C3 words them: the first three
rules pass iff at least 80% (`≥`) of the values satisfy the predicate, and
the numeric predicate is just "parses as a number". -/
def detectColumnTypeClaim (host : Host) (values : List Value) : ColType :=
  if values.length = 0 then .text
  else if 5 * values.countP isBooleanLike ≥ 4 * values.length then .boolean
  else if 5 * values.countP (fun v => (toNumber v).isSome) ≥ 4 * values.length then .numeric
  else if 5 * values.countP host.isDate ≥ 4 * values.length then .datetime
  else if values.dedup.length ≤ 50 ∧ 2 * values.dedup.length ≤ values.length then .categorical
  else .text

/-- The amended claim C3: thresholds are strict (`> 80%`), and the numeric
predicate additionally excludes the empty string and null. -/
def detectColumnTypeAmended (host : Host) (values : List Value) : ColType :=
  if values.length = 0 then .text
  else if 5 * values.countP isBooleanLike > 4 * values.length then .boolean
  else if 5 * values.countP isNumericLike > 4 * values.length then .numeric
  else if 5 * values.countP host.isDate > 4 * values.length then .datetime
  else if values.dedup.length ≤ 50 ∧ 2 * values.dedup.length ≤ values.length then .categorical
  else .text

/-- Descriptive statistics of a numeric column.  The source stores
`std = Math.sqrt(variance)`; the exact `variance` is kept instead (no
verified property reads `std`, and `√variance` is irrational in general). -/
structure ColStats where
  min : ℚ
  max : ℚ
  mean : ℚ
  median : ℚ
  q1 : ℚ
  q3 : ℚ
  variance : ℚ
deriving DecidableEq

/-- `calculateStatistics` (lines 435-450).  Only called on nonempty value
lists (guarded at the call site); quartile indices are
`Math.floor(n*0.25) = n/4` and `Math.floor(n*0.75) = 3*n/4`. -/
def calculateStatistics (values : List ℚ) : ColStats :=
  let sorted := values.insertionSort (· ≤ ·)
  let n := sorted.length
  let mean : ℚ := values.sum / n
  let variance : ℚ := (values.map (fun v => (v - mean) ^ 2)).sum / n
  { min := sorted.getD 0 0
    max := sorted.getD (n - 1) 0
    mean := mean
    median := if n % 2 = 0 then (sorted.getD (n / 2 - 1) 0 + sorted.getD (n / 2) 0) / 2
              else sorted.getD (n / 2) 0
    q1 := sorted.getD (n / 4) 0
    q3 := sorted.getD (3 * n / 4) 0
    variance := variance }

/-- Increment the count of key `k` in an insertion-ordered association
list, appending it with count 1 if absent (models `distribution[key] =
(distribution[key] || 0) + 1` on a JS object). -/
def bumpKey : List (String × ℕ) → String → List (String × ℕ)
  | [], k => [(k, 1)]
  | (k', c) :: rest, k =>
      if k' == k then (k', c + 1) :: rest else (k', c) :: bumpKey rest k

/-- `calculateDistribution` (lines 452-459): occurrence counts of the
string forms of the values, in first-seen order. -/
def calculateDistribution (values : List Value) : List (String × ℕ) :=
  values.foldl (fun acc v => bumpKey acc (jsString v)) []

/-- A profiled column (interface `DataColumn`). -/
structure DataColumn where
  name : String
  type : ColType
  uniqueValues : ℕ
  nullCount : ℕ
  sampleValues : List Value
  stats : Option ColStats
  distribution : Option (List (String × ℕ))
deriving DecidableEq

/-- Correlation strength buckets. -/
inductive Strength : Type
  | weak | moderate | strong
deriving DecidableEq

/-- `this.data.map(row => Number(row[col.name])).filter(v => !isNaN(v))`:
the per-column number list used by `calculateCorrelations`,
`createHistogram` and `calculateSkewness`.  Note that `null` and `''`
coerce to `0` and are therefore KEPT, while `undefined` and non-numeric
strings coerce to NaN and are dropped. -/
def columnNumbers (data : List Row) (c : String) : List ℚ :=
  data.filterMap (fun r => fieldNumber r c)

/-- Numerator `n*Σxy − Σx*Σy` of the Pearson formula over the first
`n = min(len x, len y)` positional pairs (lines 489-499). -/
def pearsonNum (x y : List ℚ) : ℚ :=
  let n := min x.length y.length
  let xs := x.take n
  let ys := y.take n
  (n : ℚ) * ((xs.zip ys).map (fun p => p.1 * p.2)).sum - xs.sum * ys.sum

/-- Square `(nΣx²−(Σx)²)*(nΣy²−(Σy)²)` of the Pearson denominator
(line 500); the denominator itself is `Math.sqrt` of this. -/
def pearsonDenSq (x y : List ℚ) : ℚ :=
  let n := min x.length y.length
  let xs := x.take n
  let ys := y.take n
  ((n : ℚ) * (xs.map (fun v => v * v)).sum - xs.sum * xs.sum) *
    ((n : ℚ) * (ys.map (fun v => v * v)).sum - ys.sum * ys.sum)

/-- `pearsonCorrelation` (lines 489-503): `0` when `n = 0` or the
denominator is `0`, else the standard formula.  (The denominator
`sqrt(denSq)` is zero exactly when `denSq = 0`, since `denSq ≥ 0` by
Cauchy-Schwarz — proved below as `pearsonDenSq_nonneg`.) -/
noncomputable def pearsonCorrelation (x y : List ℚ) : ℝ :=
  if min x.length y.length = 0 then 0
  else if pearsonDenSq x y = 0 then 0
  else (pearsonNum x y : ℝ) / Real.sqrt (pearsonDenSq x y : ℚ)

/-- The strength bucketing `absCorr > 0.7 ? 'strong' : absCorr > 0.3 ?
'moderate' : 'weak'` (line 480), carried out in exact arithmetic on the
numerator/denominator-square pair: for `denSq > 0`,
`|num/√denSq| > 7/10 ↔ 100*num² > 49*denSq` (proved below as
`strengthOf_correct`). -/
def strengthOf (num denSq : ℚ) : Strength :=
  if denSq = 0 then .weak
  else if 49 * denSq < 100 * num ^ 2 then .strong
  else if 9 * denSq < 100 * num ^ 2 then .moderate
  else .weak

/-- One entry of `DataProfile.correlations`.  The source stores the float
`correlation`; the embedding stores the exact numerator and
denominator-square it is computed from (`CorrEntry.correlation` below
recovers the real value), keeping the profile computable. -/
structure CorrEntry where
  col1 : String
  col2 : String
  num : ℚ
  denSq : ℚ
  strength : Strength
deriving DecidableEq

/-- The real correlation value an entry represents. -/
noncomputable def CorrEntry.correlation (e : CorrEntry) : ℝ :=
  if e.denSq = 0 then 0 else (e.num : ℝ) / Real.sqrt (e.denSq : ℚ)

/-- `calculateCorrelations` (lines 461-487): one entry per ordered pair
`i < j` of numeric columns whose (coerced, NaN-filtered) value lists both
have more than one element. -/
def calculateCorrelations (data : List Row) (numericColumns : List DataColumn) :
    List CorrEntry :=
  (pairsAfter numericColumns).filterMap (fun pc =>
    let values1 := columnNumbers data pc.1.name
    let values2 := columnNumbers data pc.2.name
    if 1 < values1.length ∧ 1 < values2.length then
      some { col1 := pc.1.name
             col2 := pc.2.name
             num := pearsonNum values1 values2
             denSq := pearsonDenSq values1 values2
             strength := strengthOf (pearsonNum values1 values2) (pearsonDenSq values1 values2) }
    else none)

/-- `calculateSkewness` (lines 833-841) on an already-coerced value list:
`Σ((v−mean)/std)³ / n` with `std = √(population variance)`.  The result is
NaN (modelled `none`) when `n = 0` (the mean is `0/0`) or when `std = 0`
(every term is `0/0`); otherwise it is the finite real given. -/
noncomputable def calculateSkewness (values : List ℚ) : Option ℝ :=
  let n := values.length
  if n = 0 then none
  else
    let mean : ℚ := values.sum / n
    let variance : ℚ := (values.map (fun v => (v - mean) ^ 2)).sum / n
    if variance = 0 then none
    else
      some ((values.map
        (fun v : ℚ => ((((v : ℚ) : ℝ) - ((mean : ℚ) : ℝ)) / Real.sqrt ((variance : ℚ) : ℝ)) ^ 3)).sum / n)

/-- Decidable form of `Math.abs(skewness) > 1` used by the insight
generator: false when the skewness is NaN, else `|Σ(v−m)³|² > n²·variance³`
(equivalent to `|skew| > 1`; proved below as `skewAbsGtOne_correct`). -/
def skewAbsGtOne (values : List ℚ) : Bool :=
  let n := values.length
  if n = 0 then false
  else
    let mean : ℚ := values.sum / n
    let variance : ℚ := (values.map (fun v => (v - mean) ^ 2)).sum / n
    decide (variance ≠ 0 ∧
      (n : ℚ) ^ 2 * variance ^ 3 < ((values.map (fun v => (v - mean) ^ 3)).sum) ^ 2)

/-- Loop of `findDuplicateRows` (lines 505-519): count rows whose
serialization has been seen before.  `JSON.stringify(row)` equality is
key-order-sensitive and value-exact, i.e. exactly structural equality of
the ordered field list. -/
def findDuplicateRowsAux : List Row → List Row → ℕ
  | _, [] => 0
  | seen, r :: rs =>
      if r ∈ seen then 1 + findDuplicateRowsAux seen rs
      else findDuplicateRowsAux (r :: seen) rs

/-- `findDuplicateRows` (lines 505-519). -/
def findDuplicateRows (data : List Row) : ℕ :=
  findDuplicateRowsAux [] data

/-- `detectOutliers` (lines 521-541): over numeric columns with stats, the
number of rows whose coerced value falls outside
`[q1 − 1.5·iqr, q3 + 1.5·iqr]` (NaN rows excluded). -/
def detectOutliers (data : List Row) (numericColumns : List DataColumn) : ℕ :=
  (numericColumns.map (fun col =>
    match col.stats with
    | none => 0
    | some st =>
        let iqr := st.q3 - st.q1
        let lowerBound := st.q1 - 3/2 * iqr
        let upperBound := st.q3 + 3/2 * iqr
        data.countP (fun r =>
          match fieldNumber r col.name with
          | none => false
          | some v => decide (v < lowerBound ∨ upperBound < v)))).sum

/-- `calculateCompleteness` (lines 543-547):
`(totalCells − nullCells) / totalCells`; `none` models the NaN produced by
`0/0` when the schema has no columns. -/
def calculateCompleteness (rowCount : ℕ) (columns : List DataColumn) : Option ℚ :=
  let totalCells := rowCount * columns.length
  if totalCells = 0 then none
  else
    let nullCells := (columns.map (·.nullCount)).sum
    some (((totalCells : ℚ) - (nullCells : ℚ)) / (totalCells : ℚ))

/-- The bin a value is assigned to:
`Math.min(Math.floor((value − min) / binWidth), binCount − 1)`. -/
def binIndex (mn binWidth : ℚ) (binCount : ℕ) (v : ℚ) : ℕ :=
  min (⌊(v - mn) / binWidth⌋.toNat) (binCount - 1)

/-- `createHistogram` (lines 550-570), returning the ordered bins as
`(binMin, binMax, count)` (the `toFixed(1)` range-label strings are
presentation and omitted).  The per-bin counts accumulated by the
source's `forEach` are expressed as one `countP` per bin.
Behaviour at the edges, as in the source:
* empty coerced value list: `binCount = min(20, ceil(√0)) = 0`, so the bin
  array is empty and the result is `[]`;
* `max = min` (hence `binWidth = 0`): `(v − min)/0` is `0/0 = NaN`,
  `bins[NaN]` is `undefined` and `.count++` throws a TypeError — modelled
  as `none`. -/
def createHistogram (data : List Row) (columnName : String) :
    Option (List (ℚ × ℚ × ℕ)) :=
  let values := columnNumbers data columnName
  if values = [] then some []
  else
    let mn := listMin values
    let mx := listMax values
    let binCount := min 20 (ceilSqrt values.length)
    let binWidth := (mx - mn) / (binCount : ℚ)
    if binWidth = 0 then none
    else
      some ((List.range binCount).map (fun i : ℕ =>
        (mn + (i : ℚ) * binWidth, mn + ((i : ℚ) + 1) * binWidth,
          values.countP (fun v => binIndex mn binWidth binCount v = i))))

/-- `this.data.map(row => row[colName]).filter(v => v !== null && v !==
undefined && v !== '')`: the non-null values of one column (line 78). -/
def columnRawValues (data : List Row) (c : String) : List Value :=
  data.filterMap (fun r =>
    match getField r c with
    | none => none
    | some v => if v = vNull ∨ v = vStr "" then none else some v)

/-- Profiling of a single column (lines 77-107). -/
def profileColumn (host : Host) (data : List Row) (colName : String) : DataColumn :=
  let values := columnRawValues data colName
  let nullCount := data.length - values.length
  let uniqueValues := values.dedup.length
  let type := detectColumnType host values
  let numericValues := values.filterMap toNumber
  { name := colName
    type := type
    uniqueValues := uniqueValues
    nullCount := nullCount
    sampleValues := values.take 10
    stats :=
      if type = .numeric ∧ numericValues ≠ [] then
        some (calculateStatistics numericValues)
      else none
    distribution :=
      if type = .categorical ∧ uniqueValues ≤ 20 then
        some (calculateDistribution values)
      else none }

/-- `DataProfile.dataQuality`. -/
structure DataQuality where
  completeness : Option ℚ
  duplicateRows : ℕ
  outliers : ℕ
deriving DecidableEq

/-- The dataset profile (interface `DataProfile`). -/
structure DataProfile where
  totalRows : ℕ
  totalColumns : ℕ
  columns : List DataColumn
  dataQuality : DataQuality
  correlations : List CorrEntry
deriving DecidableEq

/-- `profileData` (lines 68-131).  `none` models the thrown
`Error('No data to analyze')` on an empty dataset.  The schema is
`Object.keys(this.data[0])`: the first record's keys, in insertion
order. -/
def profileData (host : Host) (data : List Row) : Option DataProfile :=
  match data with
  | [] => none
  | r₀ :: _ =>
    let columnNames := r₀.map (·.1)
    let profiledColumns := columnNames.map (profileColumn host data)
    let numericColumns := profiledColumns.filter (fun c => c.type == .numeric)
    some { totalRows := data.length
           totalColumns := columnNames.length
           columns := profiledColumns
           dataQuality :=
             { completeness := calculateCompleteness data.length profiledColumns
               duplicateRows := findDuplicateRows data
               outliers := detectOutliers data numericColumns }
           correlations := calculateCorrelations data numericColumns }

/-- Chart kinds (the source's `ChartRecommendation['type']` union). -/
inductive ChartType : Type
  | bar | line | pie | scatter | heatmap | histogram | box | area | treemap
deriving DecidableEq

/-- Chart-kind-specific aggregated payloads (`ChartRecommendation.data`).
Formatted label strings are presentation and omitted; all numeric content
is kept. -/
inductive ChartData : Type
  | histBins (bins : List (ℚ × ℚ × ℕ))
  | barEntries (entries : List (String × ℕ × ℚ))
  | seriesPoints (points : List (Option ℚ × ℚ))
  | scatterPoints (points : List (ℚ × ℚ))
  | heatCells (cells : List (String × ℚ × ℕ × ℚ × ℚ))
  | boxStats (entries : List (String × ℚ × ℚ × ℚ × ℚ × ℚ × List ℚ))

/-- A chart recommendation (`interface ChartRecommendation`); the
`insights` string array is presentation (built by the textual heuristic
helpers) and omitted. -/
structure ChartRec where
  id : String
  title : String
  type : ChartType
  data : ChartData
  priority : ℕ
  columns : List String
  description : String

/-- `Object.entries(distribution).sort(([,a],[,b]) => b - a)`: stable
descending sort by count. -/
def sortCountDesc (l : List (String × ℕ)) : List (String × ℕ) :=
  l.insertionSort (fun a b => b.2 ≤ a.2)

/-- Bar-chart data (lines 171-174): top 15 categories by count, each with
its percentage of total rows (kept as an exact rational; `toFixed(1)` is
presentation). -/
def barData (dist : List (String × ℕ)) (rowCount : ℕ) : List (String × ℕ × ℚ) :=
  ((sortCountDesc dist).take 15).map
    (fun p => (p.1, p.2, (p.2 : ℚ) / (rowCount : ℚ) * 100))

/-- Ascending comparator on timestamps (`(a, b) => a.date - b.date`).  An
invalid date has NaN time; the engine treats a NaN comparator result like
0, i.e. leaves the pair in its current order, which for the stable
insertion model means "insertable before" (`true`). -/
def leTime : Option ℚ → Option ℚ → Bool
  | some a, some b => decide (a ≤ b)
  | _, _ => true

/-- `createTimeSeries` (lines 572-582): rows with both fields truthy,
mapped to (timestamp, numeric value `|| 0`), stably sorted by date
ascending, first 100 points.  The `toLocaleDateString` name label is
presentation and omitted. -/
def createTimeSeries (host : Host) (data : List Row) (dateColumn valueColumn : String) :
    List (Option ℚ × ℚ) :=
  let pts := (data.filter (fun r =>
      truthy (getField r dateColumn) && truthy (getField r valueColumn))).map
    (fun r => ((getField r dateColumn).bind host.dateVal, orZero (fieldNumber r valueColumn)))
  (pts.insertionSort (fun a b => leTime a.1 b.1)).take 100

/-- `createScatterPlot` (lines 584-593): rows with both fields truthy,
mapped to `(Number(x) || 0, Number(y) || 0)`, first 500 points. -/
def createScatterPlot (data : List Row) (c1 c2 : String) : List (ℚ × ℚ) :=
  ((data.filter (fun r => truthy (getField r c1) && truthy (getField r c2))).map
    (fun r => (orZero (fieldNumber r c1), orZero (fieldNumber r c2)))).take 500

/-- Append `v` to the group of key `k` in an insertion-ordered group list
(models `acc[category].push(value)` on a JS accumulator object). -/
def pushGroup : List (String × List ℚ) → String → ℚ → List (String × List ℚ)
  | [], k, v => [(k, [v])]
  | (k', vs) :: rest, k, v =>
      if k' == k then (k', vs ++ [v]) :: rest else (k', vs) :: pushGroup rest k v

/-- `String(row[categoryColumn] || 'Unknown')`. -/
def heatKey (r : Row) (categoryColumn : String) : String :=
  if truthy (getField r categoryColumn) then
    match getField r categoryColumn with
    | some v => jsString v
    | none => "Unknown"
  else "Unknown"

/-- `createHeatmap` (lines 595-614): group rows by category string, each
group summarized as (category, average, count, min, max) of the coerced
(`|| 0`) numeric values. -/
def createHeatmap (data : List Row) (categoryColumn valueColumn : String) :
    List (String × ℚ × ℕ × ℚ × ℚ) :=
  let grouped := data.foldl
    (fun acc r => pushGroup acc (heatKey r categoryColumn) (orZero (fieldNumber r valueColumn))) []
  grouped.map (fun g =>
    (g.1, g.2.sum / (g.2.length : ℚ), g.2.length, listMin g.2, listMax g.2))

/-- `createBoxPlot` (lines 616-649): group the non-NaN coerced values by
category string; per group (category, min, q1, median, q3, max, outliers)
with the same index-based quartiles; the outlier filter runs over the
(in-place) sorted values. -/
def createBoxPlot (data : List Row) (categoryColumn valueColumn : String) :
    List (String × ℚ × ℚ × ℚ × ℚ × ℚ × List ℚ) :=
  let grouped := data.foldl
    (fun acc r =>
      match fieldNumber r valueColumn with
      | none => acc
      | some v => pushGroup acc (heatKey r categoryColumn) v) []
  grouped.map (fun g =>
    let sorted := g.2.insertionSort (· ≤ ·)
    let n := sorted.length
    let q1 := sorted.getD (n / 4) 0
    let q3 := sorted.getD (3 * n / 4) 0
    let iqr := q3 - q1
    (g.1, sorted.getD 0 0, q1,
      (if n % 2 = 0 then (sorted.getD (n / 2 - 1) 0 + sorted.getD (n / 2) 0) / 2
       else sorted.getD (n / 2) 0),
      q3, sorted.getD (n - 1) 0,
      sorted.filter (fun v => decide (v < q1 - 3/2 * iqr ∨ q3 + 3/2 * iqr < v))))

/-- Histogram candidate for one numeric column (lines 147-166). -/
def mkHistRec (data : List Row) (col : DataColumn) : Option ChartRec :=
  (createHistogram data col.name).map (fun bins =>
    { id := "histogram-" ++ col.name
      title := "Distribution of " ++ col.name
      type := .histogram
      data := .histBins bins
      priority := 7
      columns := [col.name]
      description := "Shows the frequency distribution of " ++ col.name ++ " values" })

/-- Candidate family 1 — histograms, one per numeric column with stats;
`none` if any histogram construction throws (see `createHistogram`). -/
def histogramRecs (data : List Row) (numericCols : List DataColumn) :
    Option (List ChartRec) :=
  (numericCols.filter (fun c => c.stats.isSome)).mapM (mkHistRec data)

/-- Bar candidate for one categorical column (lines 176-190). -/
def mkBarRec (rowCount : ℕ) (col : DataColumn) (dist : List (String × ℕ)) : ChartRec :=
  { id := "bar-" ++ col.name
    title := col.name ++ " Distribution"
    type := .bar
    data := .barEntries (barData dist rowCount)
    priority := 8
    columns := [col.name]
    description := "Distribution of categories in " ++ col.name }

/-- Pie candidate for one categorical column with at most 8 uniques
(lines 193-208). -/
def mkPieRec (rowCount : ℕ) (col : DataColumn) (dist : List (String × ℕ)) : ChartRec :=
  { id := "pie-" ++ col.name
    title := col.name ++ " Composition"
    type := .pie
    data := .barEntries ((barData dist rowCount).take 6)
    priority := 6
    columns := [col.name]
    description := "Proportional breakdown of " ++ col.name }

/-- Candidate family 2 — per categorical column, its bar chart followed
immediately by its pie chart when `uniqueValues ≤ 8` (lines 169-210). -/
def barPieRecs (rowCount : ℕ) (categoricalCols : List DataColumn) : List ChartRec :=
  categoricalCols.flatMap (fun col =>
    match col.distribution with
    | none => []
    | some dist =>
        mkBarRec rowCount col dist ::
          (if col.uniqueValues ≤ 8 then [mkPieRec rowCount col dist] else []))

/-- Candidate family 3 — time series per (datetime × numeric) pair with
more than one point (lines 213-234). -/
def lineRecs (host : Host) (data : List Row) (datetimeCols numericCols : List DataColumn) :
    List ChartRec :=
  datetimeCols.flatMap (fun dateCol =>
    numericCols.flatMap (fun numCol =>
      let ts := createTimeSeries host data dateCol.name numCol.name
      if 1 < ts.length then
        [{ id := "line-" ++ dateCol.name ++ "-" ++ numCol.name
           title := numCol.name ++ " Over Time"
           type := .line
           data := .seriesPoints ts
           priority := 9
           columns := [dateCol.name, numCol.name]
           description := "Trend analysis of " ++ numCol.name ++ " over " ++ dateCol.name }]
      else []))

/-- The correlation-entry lookup of lines 241-244 (either orientation). -/
def findCorr (correlations : List CorrEntry) (c1 c2 : String) : Option CorrEntry :=
  correlations.find? (fun e =>
    (e.col1 == c1 && e.col2 == c2) || (e.col1 == c2 && e.col2 == c1))

/-- Decidable form of `Math.abs(correlation.correlation) > 0.3` (line 246):
for `denSq ≥ 0`, `|num/√denSq| > 3/10 ↔ 100·num² > 9·denSq ∧ denSq ≠ 0`
(proved below as `corrAbsGtPoint3_correct`). -/
def corrAbsGtPoint3 (e : CorrEntry) : Bool :=
  decide (e.denSq ≠ 0 ∧ 9 * e.denSq < 100 * e.num ^ 2)

/-- Candidate family 4 — scatter per numeric pair whose correlation entry
exists and has magnitude above 0.3; priority 8 when strong else 6
(lines 237-265). -/
def scatterRecs (data : List Row) (correlations : List CorrEntry)
    (numericCols : List DataColumn) : List ChartRec :=
  (pairsAfter numericCols).flatMap (fun pc =>
    match findCorr correlations pc.1.name pc.2.name with
    | none => []
    | some corr =>
        if corrAbsGtPoint3 corr then
          [{ id := "scatter-" ++ pc.1.name ++ "-" ++ pc.2.name
             title := pc.1.name ++ " vs " ++ pc.2.name
             type := .scatter
             data := .scatterPoints (createScatterPlot data pc.1.name pc.2.name)
             priority := if corr.strength = .strong then 8 else 6
             columns := [pc.1.name, pc.2.name]
             description := "Relationship between " ++ pc.1.name ++ " and " ++ pc.2.name }]
        else [])

/-- Candidate family 5 — heatmaps over the first 2 categorical × first 2
numeric columns, skipped when the grouped data is empty (lines 268-288). -/
def heatmapRecs (data : List Row) (categoricalCols numericCols : List DataColumn) :
    List ChartRec :=
  (categoricalCols.take 2).flatMap (fun catCol =>
    (numericCols.take 2).flatMap (fun numCol =>
      let hm := createHeatmap data catCol.name numCol.name
      if hm.length ≠ 0 then
        [{ id := "heatmap-" ++ catCol.name ++ "-" ++ numCol.name
           title := numCol.name ++ " by " ++ catCol.name
           type := .heatmap
           data := .heatCells hm
           priority := 5
           columns := [catCol.name, numCol.name]
           description := numCol.name ++ " values segmented by " ++ catCol.name }]
      else []))

/-- Candidate family 6 — box plots over the same column limits, restricted
to categorical columns with at most 10 uniques (lines 291-311). -/
def boxRecs (data : List Row) (categoricalCols numericCols : List DataColumn) :
    List ChartRec :=
  (categoricalCols.take 2).flatMap (fun catCol =>
    (numericCols.take 2).flatMap (fun numCol =>
      if catCol.uniqueValues ≤ 10 then
        [{ id := "box-" ++ catCol.name ++ "-" ++ numCol.name
           title := numCol.name ++ " Distribution by " ++ catCol.name
           type := .box
           data := .boxStats (createBoxPlot data catCol.name numCol.name)
           priority := 6
           columns := [catCol.name, numCol.name]
           description := "Statistical distribution of " ++ numCol.name ++ " across "
             ++ catCol.name ++ " categories" }]
      else []))

/-- The full candidate list of `generateChartRecommendations`
(lines 134-311), in the source's generation order. -/
def chartCandidates (host : Host) (data : List Row) : Option (List ChartRec) :=
  (profileData host data).bind (fun profile =>
    let numericCols := profile.columns.filter (fun c => c.type == .numeric)
    let categoricalCols := profile.columns.filter
      (fun c => c.type == .categorical && c.uniqueValues ≤ 20)
    let datetimeCols := profile.columns.filter (fun c => c.type == .datetime)
    (histogramRecs data numericCols).map (fun hists =>
      hists ++ barPieRecs data.length categoricalCols
        ++ lineRecs host data datetimeCols numericCols
        ++ scatterRecs data profile.correlations numericCols
        ++ heatmapRecs data categoricalCols numericCols
        ++ boxRecs data categoricalCols numericCols))

/-- `generateChartRecommendations` (lines 313-317):
`recommendations.sort((a, b) => b.priority - a.priority).slice(0, 8)` —
stable descending sort by priority, top 8. -/
def generateChartRecommendations (host : Host) (data : List Row) :
    Option (List ChartRec) :=
  (chartCandidates host data).map (fun recommendations =>
    (recommendations.insertionSort (fun a b => b.priority ≤ a.priority)).take 8)

/-- Insight categories (`AIInsight['type']`). -/
inductive InsightType : Type
  | trend | anomaly | correlation | distribution | quality | business
deriving DecidableEq

/-- Insight severities. -/
inductive Severity : Type
  | low | medium | high
deriving DecidableEq

/-- An insight (`interface AIInsight`); the free-text `description` /
`recommendation` / attached `data` fields are presentation and omitted. -/
structure AIInsight where
  type : InsightType
  title : String
  severity : Severity
  actionable : Bool
deriving DecidableEq

/-- `severityOrder = { high: 3, medium: 2, low: 1 }` (line 407). -/
def severityRank : Severity → ℕ
  | .high => 3
  | .medium => 2
  | .low => 1

/-- Data-quality insights (lines 329-349): completeness below 0.9 (false
for a NaN completeness) and positive duplicate count. -/
def qualityInsights (rowCount : ℕ) (dq : DataQuality) : List AIInsight :=
  (match dq.completeness with
   | none => []
   | some c =>
      if c < 9/10 then
        [{ type := .quality
           title := "Data Completeness Issue"
           severity := if c < 7/10 then .high else .medium
           actionable := true }]
      else []) ++
  (if 0 < dq.duplicateRows then
     [{ type := .quality
        title := "Duplicate Records Found"
        severity := if (rowCount : ℚ) * (5/100) < (dq.duplicateRows : ℚ) then .high else .medium
        actionable := true }]
   else [])

/-- Upper-tail outlier insight for one numeric column (lines 356-369):
rows with coerced value strictly above `q3 + 1.5·iqr` (NaN compares
false). -/
def outlierInsightFor (data : List Row) (col : DataColumn) : List AIInsight :=
  match col.stats with
  | none => []
  | some st =>
      let outlierThreshold := st.q3 + 3/2 * (st.q3 - st.q1)
      let outlierCount := data.countP (fun r =>
        match fieldNumber r col.name with
        | none => false
        | some v => decide (outlierThreshold < v))
      if 0 < outlierCount then
        [{ type := .anomaly
           title := "Outliers in " ++ col.name
           severity := if (data.length : ℚ) * (5/100) < (outlierCount : ℚ) then .medium else .low
           actionable := true }]
      else []

/-- Skewness insight for one numeric column (lines 372-382):
`Math.abs(this.calculateSkewness(col.name)) > 1` (false when the skewness
is NaN). -/
def skewInsightFor (data : List Row) (col : DataColumn) : List AIInsight :=
  if skewAbsGtOne (columnNumbers data col.name) then
    [{ type := .distribution
       title := col.name ++ " Distribution Skewed"
       severity := .low
       actionable := true }]
  else []

/-- Per-numeric-column statistical insights (lines 352-384). -/
def statInsights (data : List Row) (columns : List DataColumn) : List AIInsight :=
  (columns.filter (fun c => c.type == .numeric && c.stats.isSome)).flatMap
    (fun col => outlierInsightFor data col ++ skewInsightFor data col)

/-- Strong-correlation insights (lines 387-400). -/
def correlationInsights (correlations : List CorrEntry) : List AIInsight :=
  (correlations.filter (fun e => e.strength == .strong)).map (fun e =>
    { type := .correlation
      title := "Strong Relationship: " ++ e.col1 ++ " & " ++ e.col2
      severity := .medium
      actionable := true })

/-- All rule-based (non-business) insights, in generation order. -/
def ruleBasedInsights (data : List Row) (profile : DataProfile) : List AIInsight :=
  qualityInsights data.length profile.dataQuality
    ++ statInsights data profile.columns
    ++ correlationInsights profile.correlations

/-- `line.match(/^\d+\./)`: one or more digits followed by a dot, at the
start of the line. -/
def isNumberedLine (s : String) : Bool :=
  let ds := s.toList.takeWhile Char.isDigit
  decide (0 < ds.length) && ((s.toList.drop ds.length).head? == some '.')

/-- The unanchored search `/\[(\w+)\]\s*([^:]+):\s*(.+)/` (line 892),
returning the trimmed title group on success.  The scanner tries each
position left to right, as the regex engine does; `\s` is modelled by
space/tab. -/
def parseBracketTag : List Char → Option String
  | [] => none
  | c :: rest =>
      if c = '[' then
        let ws := rest.takeWhile (fun ch => ch.isAlphanum || ch = '_')
        let after := rest.drop ws.length
        (if 0 < ws.length then
          match after with
          | ']' :: tail =>
              let t1 := tail.dropWhile (fun ch => ch = ' ' || ch = '\t')
              let title := t1.takeWhile (fun ch => ch ≠ ':')
              let t2 := t1.drop title.length
              if 0 < title.length then
                match t2 with
                | ':' :: t3 =>
                    let t4 := t3.dropWhile (fun ch => ch = ' ' || ch = '\t')
                    if 0 < t4.length then some (String.mk (trimChars title))
                    else parseBracketTag rest
                | _ => parseBracketTag rest
              else parseBracketTag rest
          | _ => parseBracketTag rest
        else parseBracketTag rest)
      else parseBracketTag rest

/-- Parsing of one collaborator output line (lines 890-920): numbered
lines only; bracket-tag extraction, else the colon-split fallback
`substring(indexOf(' ') + 1, colonIndex)` (JS `substring` swaps its
arguments when start exceeds end). -/
def parseLineInsight (s : String) : Option AIInsight :=
  if isNumberedLine s then
    match parseBracketTag s.toList with
    | some t =>
        some { type := .business, title := t, severity := .medium, actionable := true }
    | none =>
        let cs := s.toList
        match cs.findIdx? (fun ch => ch = ':') with
        | none => none
        | some ci =>
            if 0 < ci then
              let si := (((cs.findIdx? (fun ch => ch = ' ')).map (· + 1)).getD 0)
              let lo := min si ci
              let hi := max si ci
              some { type := .business
                     title := String.mk (trimChars ((cs.take hi).drop lo))
                     severity := .medium
                     actionable := true }
            else none
  else none

/-- `generateBusinessInsights` (lines 843-953).  The narrative
collaborator (`blink.ai.generateText`) is external; its outcome is either
a thrown failure (`.error`, caught at line 922, producing the profile-based
fallback insights) or returned text (`.ok`, parsed line by line — note that
a malformed successful response simply yields no insights, with NO
fallback).  Both branches are capped at 5 (`insights.slice(0, 5)`). -/
def generateBusinessInsights (outcome : Except Unit String) (profile : DataProfile) :
    List AIInsight :=
  let raw : List AIInsight :=
    match outcome with
    | .ok text =>
        ((jsSplit '\n' text).filter (fun line => 0 < (jsTrim line).length)).filterMap
          parseLineInsight
    | .error _ =>
        (if 0 < (profile.columns.filter (fun c => c.type == .numeric)).length then
           [{ type := .business
              title := "Performance Metrics Available"
              severity := .low
              actionable := true }]
         else []) ++
        (if 0 < (profile.columns.filter (fun c => c.type == .categorical)).length then
           [{ type := .business
              title := "Segmentation Opportunities"
              severity := .low
              actionable := true }]
         else [])
  raw.take 5

/-- `generateAIInsights` (lines 320-410): rule-based insights followed by
the business insights, stably sorted by descending severity; `none` models
the profiling error on an empty dataset. -/
def generateAIInsights (outcome : Except Unit String) (host : Host) (data : List Row) :
    Option (List AIInsight) :=
  (profileData host data).map (fun profile =>
    (ruleBasedInsights data profile ++ generateBusinessInsights outcome profile).insertionSort
      (fun a b => severityRank b.severity ≤ severityRank a.severity))

/-- The real value represented by a `(num, denSq)` pair: `0` when the
denominator vanishes, else `num / √denSq`. -/
noncomputable def corrValue (num denSq : ℚ) : ℝ :=
  if denSq = 0 then 0 else (num : ℝ) / Real.sqrt (denSq : ℚ)

/-! ## Definitions written from the claims (for refinement comparisons) -/

/-- Claim C4's wording of the Pearson correlation: the standard formula
over the first `min(len x, len y)` pairs, `0` when the denominator is `0`
or fewer than 2 paired values exist. -/
noncomputable def pearsonClaim (x y : List ℚ) : ℝ :=
  if min x.length y.length < 2 then 0
  else if pearsonDenSq x y = 0 then 0
  else (pearsonNum x y : ℝ) / Real.sqrt (pearsonDenSq x y : ℚ)

/-- Claim C4's strength classification: strong iff `|r| > 0.7`, moderate
iff `0.3 < |r| ≤ 0.7`, else weak. -/
noncomputable def strengthClaim (r : ℝ) : Strength :=
  if 7/10 < |r| then .strong else if 3/10 < |r| then .moderate else .weak

/-- Claim C4's per-column value list: "each column's value list is first
filtered of nulls independently" (numbers taken from the remaining
values). -/
def claimColumnNumbers (data : List Row) (c : String) : List ℚ :=
  ((data.filterMap (fun r => getField r c)).filter (fun v => v ≠ vNull)).filterMap toNumber

/-- The correlation table exactly as claim C4 words it (null-filtered
lists). -/
noncomputable def specCorrelationsClaim (data : List Row) (cols : List DataColumn) :
    List (String × String × ℝ × Strength) :=
  (pairsAfter cols).filterMap (fun pc =>
    let x := claimColumnNumbers data pc.1.name
    let y := claimColumnNumbers data pc.2.name
    if 1 < x.length ∧ 1 < y.length then
      some (pc.1.name, pc.2.name, pearsonClaim x y, strengthClaim (pearsonClaim x y))
    else none)

/-- The correlation table as the amended claim C4 words it: per-column
lists are the rows' values coerced with `Number` (null and empty string
coerce to 0 and are kept) with NaN results dropped. -/
noncomputable def specCorrelationsAmended (data : List Row) (cols : List DataColumn) :
    List (String × String × ℝ × Strength) :=
  (pairsAfter cols).filterMap (fun pc =>
    let x := columnNumbers data pc.1.name
    let y := columnNumbers data pc.2.name
    if 1 < x.length ∧ 1 < y.length then
      some (pc.1.name, pc.2.name, pearsonClaim x y, strengthClaim (pearsonClaim x y))
    else none)

/-- Candidate family 2 restricted to the bar charts, for the grouped
family order claim C8 lists (histograms, bar, pie, line, scatter,
heatmap, box). -/
def barRecsGrouped (rowCount : ℕ) (categoricalCols : List DataColumn) : List ChartRec :=
  categoricalCols.flatMap (fun col =>
    match col.distribution with
    | none => []
    | some dist => [mkBarRec rowCount col dist])

/-- Candidate family 2 restricted to the pie charts (grouped order). -/
def pieRecsGrouped (rowCount : ℕ) (categoricalCols : List DataColumn) : List ChartRec :=
  categoricalCols.flatMap (fun col =>
    match col.distribution with
    | none => []
    | some dist => if col.uniqueValues ≤ 8 then [mkPieRec rowCount col dist] else [])

/-- The candidate list in the family-grouped order claim C8 lists: all
histograms, then all bars, then all pies, then lines, scatters, heatmaps,
boxes.  (The source interleaves each categorical column's pie right after
its bar; the stable sort produces the same output from both orders, which
is proved in the C8 theorem.) -/
def chartCandidatesGrouped (host : Host) (data : List Row) : Option (List ChartRec) :=
  (profileData host data).bind (fun profile =>
    let numericCols := profile.columns.filter (fun c => c.type == .numeric)
    let categoricalCols := profile.columns.filter
      (fun c => c.type == .categorical && c.uniqueValues ≤ 20)
    let datetimeCols := profile.columns.filter (fun c => c.type == .datetime)
    (histogramRecs data numericCols).map (fun hists =>
      hists ++ barRecsGrouped data.length categoricalCols
        ++ pieRecsGrouped data.length categoricalCols
        ++ lineRecs host data datetimeCols numericCols
        ++ scatterRecs data profile.correlations numericCols
        ++ heatmapRecs data categoricalCols numericCols
        ++ boxRecs data categoricalCols numericCols))

/-- Removal of one field from a row (used to state that a field outside
the first record's schema contributes nothing, claim C10). -/
def eraseField (f : String) (r : Row) : Row :=
  r.filter (fun p => p.1 != f)

/-! ## Shared concrete inputs for counterexamples and witnesses -/

/-- A host on which nothing parses as a date (concrete instantiation for
counterexamples/witnesses). -/
def hostNone : Host := ⟨fun _ => false, fun _ => none⟩

/-- One numeric column with a null cell: coerced values `[10, 0, 20]`,
non-null numeric values `[10, 20]`. -/
def rowsWithNull : List Row :=
  [[("a", vNum 10)], [("a", vNull)], [("a", vNum 20)]]

/-- Two numeric columns where `x` has a null in the middle row. -/
def corrRows : List Row :=
  [[("x", vNum 1), ("y", vNum 2)],
   [("x", vNull), ("y", vNum 4)],
   [("x", vNum 3), ("y", vNum 6)]]

/-- The two profiled numeric columns of `corrRows` as passed to
`calculateCorrelations` (only `.name` is read by it). -/
def corrCols : List DataColumn :=
  [⟨"x", .numeric, 0, 0, [], none, none⟩, ⟨"y", .numeric, 0, 0, [], none, none⟩]

/-- A two-row dataset with a single numeric column `a` (values 1, 2). -/
def rowsNumericPair : List Row := [[("a", vNum 1)], [("a", vNum 2)]]

/-- The profiled column of `rowsNumericPair`. -/
def colA : DataColumn :=
  ⟨"a", .numeric, 2, 0, [vNum 1, vNum 2], some ⟨1, 2, 3/2, 3/2, 1, 2, 1/4⟩, none⟩

/-- The profile of `rowsNumericPair`. -/
def profA : DataProfile := ⟨2, 1, [colA], ⟨some 1, 0, 0⟩, []⟩

/-- A single categorical column: four rows, two distinct values. -/
def rowsCat : List Row :=
  [[("c", vStr "x")], [("c", vStr "x")], [("c", vStr "y")], [("c", vStr "y")]]

/-- The value distribution of `rowsCat`'s column `c`. -/
def distC : List (String × ℕ) := [("x", 2), ("y", 2)]

/-- The profiled column of `rowsCat`. -/
def colC : DataColumn :=
  ⟨"c", .categorical, 2, 0, [vStr "x", vStr "x", vStr "y", vStr "y"], none, some distC⟩

/-! ## Generic list and sorting lemmas -/

/-- Sum distributes over a pointwise sum of maps. -/
theorem sum_map_add {α : Type} (f g : α → ℕ) (l : List α) :
    (l.map (fun x => f x + g x)).sum = (l.map f).sum + (l.map g).sum := by
  induction l with
  | nil => simp
  | cons x t ih => simp [ih]; omega

/-- Summing the indicator of `j = i` over `i < k` gives the indicator of
`j < k`. -/
theorem sum_ite_range (j k : ℕ) :
    ((List.range k).map (fun i => if j = i then 1 else 0)).sum
      = if j < k then 1 else 0 := by
  induction k with
  | zero => simp
  | succ k ih =>
    rw [List.range_succ, List.map_append, List.sum_append, ih]
    simp only [List.map_singleton, List.sum_singleton]
    split_ifs <;> omega

/-- Partition counting: summing, over all bins `i < k`, the number of list
elements whose bin is `i`, counts the elements whose bin is below `k`. -/
theorem sum_countP_bins {α : Type} (g : α → ℕ) (l : List α) (k : ℕ) :
    ((List.range k).map (fun i => l.countP (fun v => g v = i))).sum
      = l.countP (fun v => g v < k) := by
  induction l with
  | nil => simp [List.countP_nil]
  | cons v t ih =>
    have hc : ∀ i, (v :: t).countP (fun x => decide (g x = i))
        = t.countP (fun x => decide (g x = i)) + (if g v = i then 1 else 0) := by
      intro i
      rw [List.countP_cons]
      simp
    simp only [decide_eq_true_eq] at hc ⊢
    calc ((List.range k).map (fun i => (v :: t).countP (fun x => decide (g x = i)))).sum
        = ((List.range k).map
            (fun i => t.countP (fun x => decide (g x = i)) + (if g v = i then 1 else 0))).sum := by
          exact congrArg List.sum (List.map_congr_left (fun i _ => hc i))
      _ = ((List.range k).map (fun i => t.countP (fun x => decide (g x = i)))).sum
            + ((List.range k).map (fun i => if g v = i then 1 else 0)).sum :=
          sum_map_add _ _ _
      _ = t.countP (fun x => decide (g x < k)) + (if g v < k then 1 else 0) := by
          rw [ih, sum_ite_range]
      _ = (v :: t).countP (fun x => decide (g x < k)) := by
          rw [List.countP_cons]; simp

section StableSortLemmas

variable {α : Type} (r : α → α → Prop) [DecidableRel r] (p : α → Bool)

/-- Inserting an element of a class before which no crossing happens keeps
the class's subsequence intact: if elements of the same class as `a` are
never crossed (`H`), then filtering the class out of `orderedInsert a l`
gives `a` in front. -/
theorem filter_orderedInsert_pos (H : ∀ a b, p a = true → p b = true → r a b)
    (a : α) (hp : p a = true) :
    ∀ l : List α, (l.orderedInsert r a).filter p = a :: l.filter p := by
  intro l
  induction l with
  | nil => simp [List.orderedInsert, hp]
  | cons b t ih =>
    by_cases hr : r a b
    · simp [List.orderedInsert, hr, List.filter_cons, hp]
    · have hpb : p b = false := by
        rcases hb : p b with _ | _
        · rfl
        · exact absurd (H a b hp hb) hr
      simp [List.orderedInsert, hr, List.filter_cons, hpb, ih]

/-- Inserting an element outside the class leaves the class's subsequence
unchanged. -/
theorem filter_orderedInsert_neg (a : α) (hp : p a = false) :
    ∀ l : List α, (l.orderedInsert r a).filter p = l.filter p := by
  intro l
  induction l with
  | nil => simp [List.orderedInsert, hp]
  | cons b t ih =>
    by_cases hr : r a b
    · simp [List.orderedInsert, hr, List.filter_cons, hp]
    · simp only [List.orderedInsert, if_neg hr, List.filter_cons]
      rw [ih]

/-- Stability of the insertion sort, phrased on equivalence classes: if
any two elements of the class `p` are mutually insertable (`H`), the
class's subsequence survives sorting unchanged. -/
theorem filter_insertionSort (H : ∀ a b, p a = true → p b = true → r a b) :
    ∀ l : List α, (l.insertionSort r).filter p = l.filter p := by
  intro l
  induction l with
  | nil => rfl
  | cons a t ih =>
    rcases hp : p a with _ | _
    · rw [List.insertionSort, filter_orderedInsert_neg r p a hp, ih,
        List.filter_cons_of_neg (by simp [hp])]
    · rw [List.insertionSort, filter_orderedInsert_pos r p H a hp, ih,
        List.filter_cons_of_pos (by simp [hp])]

end StableSortLemmas

/-- Two lists that are sorted by descending key and have identical
per-key-class subsequences are equal. -/
theorem sorted_eq_of_key_filter_eq {α : Type} (key : α → ℕ) :
    ∀ (l₁ l₂ : List α),
      l₁.Sorted (fun a b => key b ≤ key a) → l₂.Sorted (fun a b => key b ≤ key a) →
      (∀ k, l₁.filter (fun x => key x == k) = l₂.filter (fun x => key x == k)) →
      l₁ = l₂ := by
  intro l₁
  induction l₁ with
  | nil =>
    intro l₂ _ _ h
    cases l₂ with
    | nil => rfl
    | cons b t₂ =>
      have hb := h (key b)
      rw [List.filter_cons_of_pos (by simp)] at hb
      simp at hb
  | cons a t₁ ih =>
    intro l₂ h₁ h₂ h
    cases l₂ with
    | nil =>
      have ha := h (key a)
      rw [List.filter_cons_of_pos (by simp)] at ha
      simp at ha
    | cons b t₂ =>
      have hkey : key a = key b := by
        have hmem : ∃ x ∈ b :: t₂, key x = key a := by
          have ha : a ∈ (a :: t₁).filter (fun x => key x == key a) :=
            List.mem_filter.mpr ⟨List.mem_cons_self _ _, by simp⟩
          rw [h (key a)] at ha
          rcases List.mem_filter.mp ha with ⟨hx, _⟩
          exact ⟨a, hx, rfl⟩
        have hmem₂ : ∃ y ∈ a :: t₁, key y = key b := by
          have hb : b ∈ (b :: t₂).filter (fun x => key x == key b) :=
            List.mem_filter.mpr ⟨List.mem_cons_self _ _, by simp⟩
          rw [← h (key b)] at hb
          rcases List.mem_filter.mp hb with ⟨hx, _⟩
          exact ⟨b, hx, rfl⟩
        rcases hmem with ⟨x, hx, hkx⟩
        rcases hmem₂ with ⟨y, hy, hky⟩
        have hxb : key x ≤ key b := by
          rcases List.mem_cons.mp hx with rfl | hx'
          · exact le_rfl
          · exact List.rel_of_sorted_cons h₂ x hx'
        have hya : key y ≤ key a := by
          rcases List.mem_cons.mp hy with rfl | hy'
          · exact le_rfl
          · exact List.rel_of_sorted_cons h₁ y hy'
        omega
      have hfa := h (key a)
      rw [List.filter_cons_of_pos (by simp),
        List.filter_cons_of_pos (by simp [hkey])] at hfa
      have hab : a = b := by injection hfa
      have htail : ∀ k, t₁.filter (fun x => key x == k) = t₂.filter (fun x => key x == k) := by
        intro k
        by_cases hk : key a = k
        · injection hfa with _ h'
          subst hk; exact h'
        · have h' := h k
          rw [List.filter_cons_of_neg (by simp [hk]),
            List.filter_cons_of_neg (by simp [hkey ▸ hk])] at h'
          exact h'
      rw [hab, ih t₂ h₁.of_cons h₂.of_cons htail]

/-! ## Cauchy-Schwarz and the real-versus-rational comparison bridges -/

/-- Expansion of `Σ (a − x)² ≥ 0`. -/
theorem list_sq_expand (a : ℚ) (l : List ℚ) :
    0 ≤ (l.length : ℚ) * a ^ 2 - 2 * a * l.sum + (l.map (fun v => v * v)).sum := by
  induction l with
  | nil => simp
  | cons x t ih =>
    simp only [List.length_cons, List.sum_cons, List.map_cons, List.sum_cons]
    push_cast
    nlinarith [sq_nonneg (a - x)]

/-- Cauchy-Schwarz for lists: `(Σx)² ≤ n · Σx²`. -/
theorem list_cauchy_schwarz (l : List ℚ) :
    l.sum ^ 2 ≤ (l.length : ℚ) * (l.map (fun v => v * v)).sum := by
  rcases Nat.eq_zero_or_pos l.length with h | h
  · rw [List.length_eq_zero.mp h]; simp
  · set n : ℚ := (l.length : ℚ) with hn'
    have hn : 0 < n := by rw [hn']; exact_mod_cast h
    have he := list_sq_expand l.sum (l.map (fun v => n * v))
    have h1 : (l.map (fun v => n * v)).sum = n * l.sum := by
      have := List.sum_map_mul_left l id n
      simpa using this
    have h2 : ((l.map (fun v => n * v)).map (fun v => v * v)).sum
        = n ^ 2 * (l.map (fun v => v * v)).sum := by
      rw [List.map_map]
      have hcomp : ((fun v => v * v) ∘ (fun v => n * v)) = fun v => n ^ 2 * (v * v) := by
        funext v; simp; ring
      rw [hcomp]
      have := List.sum_map_mul_left l (fun v => v * v) (n ^ 2)
      simpa using this
    have h3 : ((l.map (fun v => n * v)).length : ℚ) = n := by simp [hn']
    rw [h1, h2, h3] at he
    nlinarith [he, hn]

/-- The Pearson denominator-square is nonnegative (product of two
Cauchy-Schwarz gaps). -/
theorem pearsonDenSq_nonneg (x y : List ℚ) : 0 ≤ pearsonDenSq x y := by
  have gap : ∀ l : List ℚ, ∀ n : ℕ, (l.take n).length = n →
      0 ≤ (n : ℚ) * ((l.take n).map (fun v => v * v)).sum - (l.take n).sum * (l.take n).sum := by
    intro l n hl
    have h := list_cauchy_schwarz (l.take n)
    rw [hl] at h
    nlinarith [h]
  unfold pearsonDenSq
  apply mul_nonneg
  · exact gap x _ (by rw [List.length_take]; exact Nat.min_eq_left (Nat.min_le_left _ _))
  · exact gap y _ (by rw [List.length_take]; exact Nat.min_eq_left (Nat.min_le_right _ _))

/-- Comparing `|num|/√D` against a nonnegative bound squares away the
root. -/
theorem abs_div_sqrt_gt_iff (c num D : ℝ) (hc : 0 ≤ c) (hD : 0 < D) :
    (c < |num| / Real.sqrt D) ↔ c ^ 2 * D < num ^ 2 := by
  have hs : 0 < Real.sqrt D := Real.sqrt_pos.mpr hD
  have hss : Real.sqrt D * Real.sqrt D = D := Real.mul_self_sqrt hD.le
  rw [lt_div_iff₀ hs]
  constructor
  · intro h
    have h0 : 0 ≤ c * Real.sqrt D := mul_nonneg hc hs.le
    have hlt := mul_self_lt_mul_self h0 h
    nlinarith [sq_abs num, hlt, hss]
  · intro h
    by_contra hle
    push_neg at hle
    have hsq := mul_self_le_mul_self (abs_nonneg num) hle
    nlinarith [sq_abs num, hsq, hss]

/-- `strengthOf` computes exactly the source's bucketing
`|r| > 0.7 → strong, |r| > 0.3 → moderate, else weak` of the represented
real correlation. -/
theorem strengthOf_spec (num denSq : ℚ) (hD : 0 ≤ denSq) :
    strengthOf num denSq =
      (if (7 : ℝ)/10 < |corrValue num denSq| then Strength.strong
       else if (3 : ℝ)/10 < |corrValue num denSq| then Strength.moderate
       else Strength.weak) := by
  rcases eq_or_lt_of_le hD with h0 | hpos
  · rw [strengthOf, corrValue, if_pos h0.symm, if_pos h0.symm]
    norm_num
  · have hDr : (0 : ℝ) < (denSq : ℚ) := by exact_mod_cast hpos
    have habs : |corrValue num denSq| = |(num : ℝ)| / Real.sqrt (denSq : ℚ) := by
      rw [corrValue, if_neg (ne_of_gt hpos), abs_div,
        abs_of_nonneg (Real.sqrt_nonneg _)]
    have key : ∀ c : ℚ, 0 ≤ c →
        ((c : ℝ) < |corrValue num denSq| ↔ c ^ 2 * denSq < num ^ 2) := by
      intro c hc
      rw [habs, abs_div_sqrt_gt_iff _ _ _ (by exact_mod_cast hc) hDr]
      constructor <;> intro h
      · exact_mod_cast h
      · exact_mod_cast h
    have k7 := key (7/10) (by norm_num)
    have k3 := key (3/10) (by norm_num)
    rw [strengthOf, if_neg (ne_of_gt hpos)]
    push_cast at k7 k3
    have q7 : (49 * denSq < 100 * num ^ 2) ↔ ((7 : ℚ)/10) ^ 2 * denSq < num ^ 2 := by
      constructor <;> intro h <;> nlinarith [h]
    have q3 : (9 * denSq < 100 * num ^ 2) ↔ ((3 : ℚ)/10) ^ 2 * denSq < num ^ 2 := by
      constructor <;> intro h <;> nlinarith [h]
    by_cases h7 : 49 * denSq < 100 * num ^ 2
    · have hr7 : (7 : ℝ)/10 < |corrValue num denSq| := k7.mpr (q7.mp h7)
      rw [if_pos h7, if_pos hr7]
    · have hr7 : ¬ (7 : ℝ)/10 < |corrValue num denSq| :=
        fun hh => h7 (q7.mpr (k7.mp hh))
      by_cases h3 : 9 * denSq < 100 * num ^ 2
      · have hr3 : (3 : ℝ)/10 < |corrValue num denSq| := k3.mpr (q3.mp h3)
        rw [if_neg h7, if_pos h3, if_neg hr7, if_pos hr3]
      · have hr3 : ¬ (3 : ℝ)/10 < |corrValue num denSq| :=
          fun hh => h3 (q3.mpr (k3.mp hh))
        rw [if_neg h7, if_neg h3, if_neg hr7, if_neg hr3]

/-- `corrAbsGtPoint3` computes exactly `|r| > 0.3` on the represented real
correlation. -/
theorem corrAbsGtPoint3_correct (e : CorrEntry) (hD : 0 ≤ e.denSq) :
    corrAbsGtPoint3 e = true ↔ (3 : ℝ)/10 < |corrValue e.num e.denSq| := by
  rw [corrAbsGtPoint3]
  rcases eq_or_lt_of_le hD with h0 | hpos
  · rw [corrValue, if_pos h0.symm, abs_zero]
    simp only [decide_eq_true_eq]
    constructor
    · rintro ⟨hne, -⟩
      exact absurd h0.symm hne
    · intro h
      norm_num at h
  · have hDr : (0 : ℝ) < (e.denSq : ℚ) := by exact_mod_cast hpos
    have habs : |corrValue e.num e.denSq| = |(e.num : ℝ)| / Real.sqrt (e.denSq : ℚ) := by
      rw [corrValue, if_neg (ne_of_gt hpos), abs_div,
        abs_of_nonneg (Real.sqrt_nonneg _)]
    rw [habs, abs_div_sqrt_gt_iff _ _ _ (by norm_num) hDr]
    simp only [decide_eq_true_eq]
    constructor
    · rintro ⟨-, h⟩
      have h' : ((3 : ℚ)/10) ^ 2 * e.denSq < e.num ^ 2 := by nlinarith [h]
      have : (((3 : ℚ)/10 : ℚ) : ℝ) ^ 2 * ((e.denSq : ℚ) : ℝ) < ((e.num : ℚ) : ℝ) ^ 2 := by
        exact_mod_cast h'
      calc ((3 : ℝ)/10) ^ 2 * (e.denSq : ℚ) = (((3 : ℚ)/10 : ℚ) : ℝ) ^ 2 * ((e.denSq : ℚ) : ℝ) := by
            norm_num
        _ < ((e.num : ℚ) : ℝ) ^ 2 := this
    · intro h
      refine ⟨ne_of_gt hpos, ?_⟩
      have h' : (((3 : ℚ)/10 : ℚ) : ℝ) ^ 2 * ((e.denSq : ℚ) : ℝ) < ((e.num : ℚ) : ℝ) ^ 2 := by
        calc (((3 : ℚ)/10 : ℚ) : ℝ) ^ 2 * ((e.denSq : ℚ) : ℝ)
            = ((3 : ℝ)/10) ^ 2 * (e.denSq : ℚ) := by norm_num
          _ < ((e.num : ℚ) : ℝ) ^ 2 := h
      have h'' : ((3 : ℚ)/10) ^ 2 * e.denSq < e.num ^ 2 := by exact_mod_cast h'
      nlinarith [h'']

/-! ## Bridges between the computable encodings and the real-valued source
formulas -/

/-- With exactly one paired value, the Pearson denominator vanishes. -/
theorem pearsonDenSq_of_min_eq_one (x y : List ℚ) (h : min x.length y.length = 1) :
    pearsonDenSq x y = 0 := by
  unfold pearsonDenSq
  rw [h]
  cases x with
  | nil => simp at h
  | cons a t =>
    simp

/-- `pearsonCorrelation` is the real value represented by its
numerator/denominator-square encoding. -/
theorem pearsonCorrelation_eq_corrValue (x y : List ℚ) :
    pearsonCorrelation x y = corrValue (pearsonNum x y) (pearsonDenSq x y) := by
  unfold pearsonCorrelation corrValue
  by_cases hn : min x.length y.length = 0
  · rw [if_pos hn]
    have hd : pearsonDenSq x y = 0 := by
      unfold pearsonDenSq
      rw [hn]
      simp
    rw [if_pos hd]
  · rw [if_neg hn]

/-- `pearsonCorrelation` satisfies claim C4's description of the formula
(0 when fewer than 2 paired values or a zero denominator, else the
standard formula): with one pair the denominator already vanishes. -/
theorem pearsonCorrelation_eq_claim (x y : List ℚ) :
    pearsonCorrelation x y = pearsonClaim x y := by
  unfold pearsonCorrelation pearsonClaim
  by_cases h0 : min x.length y.length = 0
  · rw [if_pos h0, if_pos (by rw [h0]; norm_num)]
  · by_cases h1 : min x.length y.length = 1
    · rw [if_neg h0, if_pos (pearsonDenSq_of_min_eq_one x y h1),
        if_pos (by rw [h1]; norm_num)]
    · have h2 : ¬ min x.length y.length < 2 := by
        set mn := min x.length y.length
        omega
      rw [if_neg h0, if_neg h2]

/-- Pulling the constant divisor out of the summed cubes (used to relate
the source's skewness expression to its exact numerator). -/
theorem sum_div_cube (l : List ℚ) (m : ℚ) (c : ℝ) :
    (l.map (fun v : ℚ => ((((v : ℚ) : ℝ) - ((m : ℚ) : ℝ)) / c) ^ 3)).sum
      = (((l.map (fun v => (v - m) ^ 3)).sum : ℚ) : ℝ) * (c ^ 3)⁻¹ := by
  induction l with
  | nil => simp
  | cons x t ih =>
    simp only [List.map_cons, List.sum_cons]
    rw [ih]
    push_cast
    ring

/-- The decidable `skewAbsGtOne` computes exactly `|skewness| > 1` on the
real skewness of the column, and is false when that skewness is NaN. -/
theorem skewAbsGtOne_correct (values : List ℚ) :
    skewAbsGtOne values = true ↔ ∃ s, calculateSkewness values = some s ∧ 1 < |s| := by
  unfold skewAbsGtOne calculateSkewness
  by_cases hn : values.length = 0
  · simp [hn]
  · simp only [if_neg hn]
    set m : ℚ := values.sum / (values.length : ℚ) with hm
    set V : ℚ := (values.map (fun v => (v - m) ^ 2)).sum / (values.length : ℚ) with hVdef
    by_cases hV0 : V = 0
    · simp [hV0]
    · simp only [if_neg hV0, decide_eq_true_eq]
      rw [and_iff_right hV0]
      have hVnn : 0 ≤ V := by
        rw [hVdef]
        apply div_nonneg
        · apply List.sum_nonneg
          intro a ha
          rcases List.mem_map.mp ha with ⟨v, -, rfl⟩
          positivity
        · positivity
      have hVpos : 0 < V := lt_of_le_of_ne hVnn (Ne.symm hV0)
      have hVr : (0 : ℝ) < ((V : ℚ) : ℝ) := by exact_mod_cast hVpos
      have hnr : (0 : ℝ) < ((values.length : ℕ) : ℝ) := by
        have h' : 0 < values.length := Nat.pos_of_ne_zero hn
        exact_mod_cast h'
      set c : ℝ := Real.sqrt ((V : ℚ) : ℝ) with hc
      have hcpos : 0 < c := Real.sqrt_pos.mpr hVr
      have hc2 : c * c = ((V : ℚ) : ℝ) := Real.mul_self_sqrt hVr.le
      set S3 : ℚ := (values.map (fun v => (v - m) ^ 3)).sum with hS3
      have hsum := sum_div_cube values m c
      rw [← hS3] at hsum
      have hc3 : (0 : ℝ) < c ^ 3 := by positivity
      have habs : |((S3 : ℚ) : ℝ) * (c ^ 3)⁻¹ / ((values.length : ℕ) : ℝ)|
          = |((S3 : ℚ) : ℝ)| / (c ^ 3 * ((values.length : ℕ) : ℝ)) := by
        rw [abs_div, abs_mul, abs_inv, abs_of_pos hc3, abs_of_pos hnr]
        ring
      have hc6 : c ^ 3 * c ^ 3 = ((V : ℚ) : ℝ) ^ 3 := by
        calc c ^ 3 * c ^ 3 = (c * c) ^ 3 := by ring
          _ = ((V : ℚ) : ℝ) ^ 3 := by rw [hc2]
      have hiff : (1 : ℝ) < |((S3 : ℚ) : ℝ)| / (c ^ 3 * ((values.length : ℕ) : ℝ))
          ↔ ((values.length : ℕ) : ℚ) ^ 2 * V ^ 3 < S3 ^ 2 := by
        rw [one_lt_div (by positivity)]
        constructor
        · intro h
          have hsq := mul_self_lt_mul_self (by positivity) h
          have heq : (c ^ 3 * ((values.length : ℕ) : ℝ)) * (c ^ 3 * ((values.length : ℕ) : ℝ))
              = ((V : ℚ) : ℝ) ^ 3 * ((values.length : ℕ) : ℝ) ^ 2 := by
            rw [← hc6]; ring
          rw [heq, abs_mul_abs_self] at hsq
          have hr : ((values.length : ℕ) : ℝ) ^ 2 * ((V : ℚ) : ℝ) ^ 3 < ((S3 : ℚ) : ℝ) ^ 2 := by
            nlinarith [hsq]
          exact_mod_cast hr
        · intro h
          have hr : ((values.length : ℕ) : ℝ) ^ 2 * ((V : ℚ) : ℝ) ^ 3 < ((S3 : ℚ) : ℝ) ^ 2 := by
            exact_mod_cast h
          by_contra hle
          push_neg at hle
          have hsq := mul_self_le_mul_self (abs_nonneg _) hle
          rw [abs_mul_abs_self] at hsq
          nlinarith [hsq, hc6]
      constructor
      · intro h
        refine ⟨_, rfl, ?_⟩
        rw [hsum, habs, hiff]
        exact h
      · rintro ⟨s, hs, hgt⟩
        rw [Option.some_inj] at hs
        rw [← hs, hsum, habs, hiff] at hgt
        exact hgt

/-! ## Supporting lemmas for the claim theorems -/

/-- The source's float comparison `count > length * 0.8` in exact
arithmetic is the strict 80% threshold. -/
theorem qgt_iff (c n : ℕ) : ((c : ℚ) > (n : ℚ) * (8/10)) ↔ 5 * c > 4 * n := by
  rw [gt_iff_lt, gt_iff_lt]
  constructor
  · intro h
    have h' : ((4 * n : ℕ) : ℚ) < ((5 * c : ℕ) : ℚ) := by push_cast; linarith
    exact_mod_cast h'
  · intro h
    have h' : ((4 * n : ℕ) : ℚ) < ((5 * c : ℕ) : ℚ) := by exact_mod_cast h
    push_cast at h'
    linarith

/-- The source's `unique <= Math.min(50, length * 0.5)` in exact
arithmetic. -/
theorem qcat_iff (d n : ℕ) :
    ((d : ℚ) ≤ min 50 ((n : ℚ) * (1/2))) ↔ (d ≤ 50 ∧ 2 * d ≤ n) := by
  rw [le_min_iff]
  constructor
  · rintro ⟨h1, h2⟩
    refine ⟨by exact_mod_cast h1, ?_⟩
    have h' : ((2 * d : ℕ) : ℚ) ≤ (n : ℚ) := by push_cast; linarith
    exact_mod_cast h'
  · rintro ⟨h1, h2⟩
    refine ⟨by exact_mod_cast h1, ?_⟩
    have h' : ((2 * d : ℕ) : ℚ) ≤ ((n : ℕ) : ℚ) := by exact_mod_cast h2
    push_cast at h'
    linarith

/-- Indexing with `getD` is monotone on a sorted list. -/
theorem sorted_getD_mono (l : List ℚ) (hs : l.Sorted (· ≤ ·)) (i j : ℕ)
    (hij : i ≤ j) (hj : j < l.length) : l.getD i 0 ≤ l.getD j 0 := by
  have hi : i < l.length := lt_of_le_of_lt hij hj
  have hgi : l.getD i 0 = l.get ⟨i, hi⟩ := by
    rw [List.getD_eq_getElem?_getD, List.getElem?_eq_getElem hi]
    simp
  have hgj : l.getD j 0 = l.get ⟨j, hj⟩ := by
    rw [List.getD_eq_getElem?_getD, List.getElem?_eq_getElem hj]
    simp
  rw [hgi, hgj]
  rcases eq_or_lt_of_le hij with rfl | hlt
  · exact le_refl _
  · exact List.Sorted.rel_get_of_lt hs hlt

/-- Accumulator invariant of the duplicate-row loop: duplicates plus
newly-seen distinct rows account for the whole list. -/
theorem findDuplicateRowsAux_toFinset (data : List Row) :
    ∀ seen : List Row,
      findDuplicateRowsAux seen data + (data.toFinset \ seen.toFinset).card = data.length := by
  induction data with
  | nil => intro seen; simp [findDuplicateRowsAux]
  | cons r rs ih =>
    intro seen
    simp only [findDuplicateRowsAux]
    by_cases hr : r ∈ seen
    · rw [if_pos hr]
      have hset : (r :: rs).toFinset \ seen.toFinset = rs.toFinset \ seen.toFinset := by
        rw [List.toFinset_cons]
        exact Finset.insert_sdiff_of_mem _ (List.mem_toFinset.mpr hr)
      rw [hset]
      have h' := ih seen
      simp only [List.length_cons]
      omega
    · rw [if_neg hr]
      have hset : (r :: rs).toFinset \ seen.toFinset
          = insert r (rs.toFinset \ (r :: seen).toFinset) := by
        ext x
        simp only [List.toFinset_cons, Finset.mem_sdiff, Finset.mem_insert,
          List.mem_toFinset, List.mem_cons]
        constructor
        · rintro ⟨hx | hx, hnx⟩
          · left; exact hx
          · by_cases hxr : x = r
            · left; exact hxr
            · right
              exact ⟨hx, by push_neg; exact ⟨hxr, hnx⟩⟩
        · rintro (rfl | ⟨hx, hnx⟩)
          · exact ⟨Or.inl rfl, hr⟩
          · push_neg at hnx
            exact ⟨Or.inr hx, hnx.2⟩
      rw [hset, Finset.card_insert_of_not_mem (by simp)]
      have h' := ih (r :: seen)
      simp only [List.length_cons]
      omega

/-- `ceil(√n)` is positive for positive `n`. -/
theorem ceilSqrt_pos (n : ℕ) (h : 0 < n) : 0 < ceilSqrt n := by
  unfold ceilSqrt
  split_ifs with hsq
  · by_contra h0
    push_neg at h0
    have hz : Nat.sqrt n = 0 := by omega
    rw [hz] at hsq
    omega
  · omega

/-- `Nat.sqrt` evaluated through its characterization (the kernel cannot
reduce its well-founded recursion). -/
theorem natSqrt_eval (n m : ℕ) (h1 : m * m ≤ n) (h2 : n < (m + 1) * (m + 1)) :
    Nat.sqrt n = m :=
  Nat.le_antisymm (Nat.lt_succ_iff.mp (Nat.sqrt_lt.mpr h2)) (Nat.le_sqrt.mpr h1)

/-- Workhorse for C3 and for concrete evaluations: the rational-threshold
cascade equals the natural-number form. -/
theorem detectColumnType_nat (host : Host) (values : List Value) :
    detectColumnType host values = detectColumnTypeAmended host values := by
  unfold detectColumnType detectColumnTypeAmended
  simp only [List.countP_eq_length_filter, qgt_iff, qcat_iff]

/-! ## Claim theorems -/

/-- C1: for a numeric column whose values are all equal (`max == min`,
bin width 0), the claim says histogram generation must not fail and must
still assign every value to a valid bin.  The code violates this: with
`binWidth = 0`, `(value − min)/0` is `0/0 = NaN`, `bins[NaN]` is
`undefined`, and `bins[NaN].count++` throws a TypeError.  The theorem
evaluates the embedded `createHistogram` at the failing input
(two rows with `a = 5`), where the thrown error is modelled as `none`. -/
theorem C1_histogram_degenerate_throws :
    createHistogram [[("a", vNum 5)], [("a", vNum 5)]] "a" = none := by
  have h1 : columnNumbers [[("a", vNum 5)], [("a", vNum 5)]] "a" = [5, 5] := by decide
  have h2 : ceilSqrt 2 = 2 := by
    unfold ceilSqrt
    rw [natSqrt_eval 2 1 (by norm_num) (by norm_num)]
    decide
  have hmin : listMin [(5 : ℚ), 5] = 5 := by decide
  have hmax : listMax [(5 : ℚ), 5] = 5 := by decide
  simp only [createHistogram, h1, h2, hmin, hmax]
  norm_num
  simp

/-- C2: for a zero-spread column the claim (and spec) require both the
Pearson correlation and the moment-based skewness to be the number 0.
The correlation half holds (the denominator vanishes and the source
returns 0), but `calculateSkewness` divides `(val − mean) = 0` by
`std = 0`, so every term is `0/0 = NaN` and the result is NaN (`none`),
not 0.  The theorem evaluates both at the failing input `[5,5,5]`. -/
theorem C2_skewness_nan_on_zero_spread :
    calculateSkewness [5, 5, 5] = none ∧
    pearsonCorrelation [5, 5, 5] [1, 2, 3] = 0 := by
  constructor
  · unfold calculateSkewness
    norm_num
  · rw [pearsonCorrelation_eq_corrValue]
    have hd : pearsonDenSq [5, 5, 5] [1, 2, 3] = 0 := by
      norm_num [pearsonDenSq]
    rw [hd, corrValue]
    simp

/-- C3 (counterexample): the claim says each of the first three rules
passes at exactly 80% (`≥ 80%`), and that the numeric rule is "parses as
a (finite) number".  The code uses strict `>` and additionally excludes
`''`/`null` from the numeric rule: a column of four booleans and one
other value (exactly 80% boolean) is classified categorical, not boolean,
and a column of two empty strings (100% `Number`-parseable) is classified
categorical, not numeric. -/
theorem C3_threshold_counterexample :
    detectColumnTypeClaim hostNone
        [vBool true, vBool true, vBool true, vBool true, vStr "x"] = ColType.boolean ∧
    detectColumnType hostNone
        [vBool true, vBool true, vBool true, vBool true, vStr "x"] = ColType.categorical ∧
    detectColumnTypeClaim hostNone [vStr "", vStr ""] = ColType.numeric ∧
    detectColumnType hostNone [vStr "", vStr ""] = ColType.categorical := by
  refine ⟨by decide, ?_, by decide, ?_⟩ <;>
    rw [detectColumnType_nat] <;> decide

/-- C3 (amended): type inference evaluates boolean, numeric, datetime,
categorical, text in that fixed order and returns the first passing rule,
where the first three rules pass iff STRICTLY MORE than 80% of the values
satisfy their predicate (boolean: literal booleans, the strings
"true"/"false", or the numbers 0/1; numeric: coerces to a number,
excluding the empty string and null; datetime: parses as a date),
categorical passes iff the distinct count is ≤ min(50, half the count),
and an empty sequence yields text. -/
theorem C3_type_inference_amended (host : Host) (values : List Value) :
    detectColumnType host values = detectColumnTypeAmended host values :=
  detectColumnType_nat host values

/-- C5 (counterexample): the claim says duplicate detection uses
order-independent equality of the field-value mapping.  The code key is
`JSON.stringify(row)`, which is key-order-sensitive: two rows holding the
same mapping with the keys in different orders (a genuine permutation,
second conjunct) are not counted as duplicates. -/
theorem C5_key_order_counterexample :
    findDuplicateRows
        [[("a", vNum 1), ("b", vNum 2)], [("b", vNum 2), ("a", vNum 1)]] = 0 ∧
    ([("a", vNum 1), ("b", vNum 2)] : Row).Perm [("b", vNum 2), ("a", vNum 1)] := by
  refine ⟨by decide, by decide⟩

/-- C5 (amended): `duplicateRows` counts the records whose exact ordered
field-value list (JSON serialization, key-order-sensitive) equals an
earlier record's: the count always equals the total length minus the
number of distinct records; in particular 5 identical rows among 10 total
give `duplicateRows = 4`. -/
theorem C5_duplicate_rows_amended :
    (∀ data : List Row, findDuplicateRows data + data.dedup.length = data.length) ∧
    findDuplicateRows
      (List.replicate 5 [("a", vNum 1)] ++
        [[("a", vNum 2)], [("a", vNum 3)], [("a", vNum 4)],
         [("a", vNum 5)], [("a", vNum 6)]]) = 4 := by
  constructor
  · intro data
    have h := findDuplicateRowsAux_toFinset data []
    simp only [List.toFinset_nil, Finset.sdiff_empty] at h
    rw [List.card_toFinset] at h
    exact h
  · decide

/-- Histogram round-trip workhorse: with a nonempty coerced value list
and `min < max`, every value lands in exactly one bin, so the counts sum
to the list length. -/
theorem histogram_sum_eq (data : List Row) (c : String)
    (hne : columnNumbers data c ≠ [])
    (hlt : listMin (columnNumbers data c) < listMax (columnNumbers data c)) :
    ∃ bins, createHistogram data c = some bins ∧
      (bins.map (fun b => b.2.2)).sum = (columnNumbers data c).length := by
  unfold createHistogram
  rw [if_neg hne]
  set vs := columnNumbers data c with hvs
  set mn := listMin vs
  set mx := listMax vs
  set bc := min 20 (ceilSqrt vs.length) with hbc
  have hbcpos : 0 < bc := by
    rw [hbc]
    have h1 : 0 < ceilSqrt vs.length :=
      ceilSqrt_pos _ (List.length_pos.mpr hne)
    omega
  have hw : (mx - mn) / (bc : ℚ) ≠ 0 := by
    apply div_ne_zero
    · have : 0 < mx - mn := by linarith [hlt]
      exact ne_of_gt this
    · exact Nat.cast_ne_zero.mpr (by omega)
  rw [if_neg hw]
  refine ⟨_, rfl, ?_⟩
  have hmain : ((List.range bc).map
      (fun i : ℕ => vs.countP (fun v => binIndex mn ((mx - mn) / (bc : ℚ)) bc v = i))).sum
      = vs.length := by
    rw [sum_countP_bins (binIndex mn ((mx - mn) / (bc : ℚ)) bc) vs bc]
    apply List.countP_eq_length.mpr
    intro v _
    simp only [decide_eq_true_eq, binIndex]
    omega
  rw [List.map_map]
  exact Eq.trans (congrArg List.sum (List.map_congr_left (fun i _ => rfl))) hmain

/-- C6 (counterexample): the claim says the histogram bin counts sum to
the count of NON-NULL numeric values.  The histogram value list coerces
every row with `Number` and only drops NaN, so a null cell is kept as 0:
on a column with values `10, null, 20` the bin counts sum to 3 while the
non-null numeric count is 2. -/
theorem C6_null_inclusion_counterexample :
    (createHistogram rowsWithNull "a").map (fun bins => (bins.map (fun b => b.2.2)).sum)
        = some 3 ∧
    ((columnRawValues rowsWithNull "a").filterMap toNumber).length = 2 := by
  constructor
  · rcases histogram_sum_eq rowsWithNull "a" (by decide) (by decide) with ⟨bins, hbins, hsum⟩
    rw [hbins, Option.map_some', hsum]
    decide
  · decide

/-- C6 (amended): for a numeric column whose coerced value list
(`Number(row[col])` over all rows, NaN dropped — null and empty string
coerce to 0 and are kept) is nonempty with `min < max`, the histogram is
produced and its bin counts sum exactly to the length of that coerced
list (each value lands in exactly one of the `min(20, ceil(√n))` bins via
`min(floor((v−min)/width), binCount−1)`).  (When `max = min` the
histogram code instead throws — claim C1.) -/
theorem C6_histogram_sum_amended (data : List Row) (c : String)
    (hne : columnNumbers data c ≠ [])
    (hlt : listMin (columnNumbers data c) < listMax (columnNumbers data c)) :
    ∃ bins, createHistogram data c = some bins ∧
      (bins.map (fun b => b.2.2)).sum = (columnNumbers data c).length :=
  histogram_sum_eq data c hne hlt

/-- C9: for a nonempty numeric value list the computed statistics satisfy
`min ≤ q1 ≤ median ≤ q3 ≤ max` (min/max from the sorted ends, median the
midpoint average for even n, q1/q3 at sorted indices `floor(n/4)` and
`floor(3n/4)`). -/
theorem C9_statistics_quartile_order (values : List ℚ) (h : values ≠ []) :
    (calculateStatistics values).min ≤ (calculateStatistics values).q1 ∧
    (calculateStatistics values).q1 ≤ (calculateStatistics values).median ∧
    (calculateStatistics values).median ≤ (calculateStatistics values).q3 ∧
    (calculateStatistics values).q3 ≤ (calculateStatistics values).max := by
  have hs : (values.insertionSort (· ≤ ·)).Sorted (· ≤ ·) :=
    List.sorted_insertionSort _ _
  set L := values.insertionSort (· ≤ ·) with hL
  have hlen : L.length = values.length := List.length_insertionSort _ _
  have hn : 0 < L.length := by
    rw [hlen]
    exact List.length_pos.mpr h
  simp only [calculateStatistics, ← hL]
  set n := L.length with hn'
  refine ⟨?_, ?_, ?_, ?_⟩
  · exact sorted_getD_mono L hs 0 (n/4) (Nat.zero_le _) (by omega)
  · by_cases hpar : n % 2 = 0
    · rw [if_pos hpar]
      have ha := sorted_getD_mono L hs (n/4) (n/2 - 1) (by omega) (by omega)
      have hb := sorted_getD_mono L hs (n/2 - 1) (n/2) (by omega) (by omega)
      linarith
    · rw [if_neg hpar]
      exact sorted_getD_mono L hs (n/4) (n/2) (by omega) (by omega)
  · by_cases hpar : n % 2 = 0
    · rw [if_pos hpar]
      have ha := sorted_getD_mono L hs (n/2 - 1) (n/2) (by omega) (by omega)
      have hb := sorted_getD_mono L hs (n/2) (3*n/4) (by omega) (by omega)
      linarith
    · rw [if_neg hpar]
      exact sorted_getD_mono L hs (n/2) (3*n/4) (by omega) (by omega)
  · exact sorted_getD_mono L hs (3*n/4) (n-1) (by omega) (by omega)

/-- C9 (witness): the ordering theorem at the concrete input
`[3, 1, 2, 10]`. -/
theorem C9_witness :
    ([3, 1, 2, 10] : List ℚ) ≠ [] ∧
    ((calculateStatistics [3, 1, 2, 10]).min ≤ (calculateStatistics [3, 1, 2, 10]).q1 ∧
     (calculateStatistics [3, 1, 2, 10]).q1 ≤ (calculateStatistics [3, 1, 2, 10]).median ∧
     (calculateStatistics [3, 1, 2, 10]).median ≤ (calculateStatistics [3, 1, 2, 10]).q3 ∧
     (calculateStatistics [3, 1, 2, 10]).q3 ≤ (calculateStatistics [3, 1, 2, 10]).max) :=
  ⟨by decide, C9_statistics_quartile_order [3, 1, 2, 10] (by decide)⟩

/-- C6 (witness): the amended histogram round-trip at the concrete
column with a null cell. -/
theorem C6_witness :
    (columnNumbers rowsWithNull "a" ≠ [] ∧
      listMin (columnNumbers rowsWithNull "a") < listMax (columnNumbers rowsWithNull "a")) ∧
    ∃ bins, createHistogram rowsWithNull "a" = some bins ∧
      (bins.map (fun b => b.2.2)).sum = (columnNumbers rowsWithNull "a").length :=
  ⟨⟨by decide, by decide⟩,
    C6_histogram_sum_amended rowsWithNull "a" (by decide) (by decide)⟩

/-- C4 (counterexample): the claim says the per-column lists are "first
filtered of nulls independently".  The code instead coerces every row
with `Number` (null → 0) and only drops NaN: on rows
`{x:1,y:2}, {x:null,y:4}, {x:3,y:6}` the code pairs `[1,0,3]` with
`[2,4,6]` and classifies the strength as moderate, while the claim's
null-filtered pairing `[1,3]`/`[2,4,6]` gives correlation 1 and strength
strong. -/
theorem C4_null_filtering_counterexample :
    (calculateCorrelations corrRows corrCols).map (fun e => (e.col1, e.col2, e.strength))
        = [("x", "y", Strength.moderate)] ∧
    (specCorrelationsClaim corrRows corrCols).map (fun t => (t.1, t.2.1, t.2.2.2))
        = [("x", "y", Strength.strong)] := by
  constructor
  · have h1 : columnNumbers corrRows "x" = [1, 0, 3] := by decide
    have h2 : columnNumbers corrRows "y" = [2, 4, 6] := by decide
    have hn : pearsonNum [1, 0, 3] [2, 4, 6] = 12 := by norm_num [pearsonNum]
    have hd : pearsonDenSq [1, 0, 3] [2, 4, 6] = 336 := by norm_num [pearsonDenSq]
    have hs : strengthOf 12 336 = Strength.moderate := by norm_num [strengthOf]
    simp only [calculateCorrelations, corrCols, pairsAfter, List.map_cons, List.map_nil,
      List.nil_append, List.cons_append, List.filterMap_cons, List.filterMap_nil, h1, h2]
    norm_num [hn, hd, hs]
  · have h1 : claimColumnNumbers corrRows "x" = [1, 3] := by decide
    have h2 : claimColumnNumbers corrRows "y" = [2, 4, 6] := by decide
    have hn : pearsonNum [1, 3] [2, 4, 6] = 4 := by norm_num [pearsonNum]
    have hd : pearsonDenSq [1, 3] [2, 4, 6] = 16 := by norm_num [pearsonDenSq]
    have hsqrt : Real.sqrt ((16 : ℚ) : ℝ) = 4 := by
      rw [show ((16 : ℚ) : ℝ) = (4 : ℝ) ^ 2 by norm_num, Real.sqrt_sq (by norm_num : (0:ℝ) ≤ 4)]
    have hp : pearsonClaim [1, 3] [2, 4, 6] = 1 := by
      unfold pearsonClaim
      rw [if_neg (by norm_num), if_neg (by rw [hd]; norm_num), hn, hd, hsqrt]
      norm_num
    have hsc : strengthClaim (pearsonClaim [1, 3] [2, 4, 6]) = Strength.strong := by
      rw [hp]
      unfold strengthClaim
      rw [if_pos (by rw [abs_one]; norm_num)]
    simp only [specCorrelationsClaim, corrCols, pairsAfter, List.map_cons, List.map_nil,
      List.nil_append, List.cons_append, List.filterMap_cons, List.filterMap_nil, h1, h2]
    norm_num [hsc]

/-- C4 (amended): for every dataset and numeric-column list, the
correlation table is computed over the first `min(len x, len y)`
positionally paired values of each column's COERCED list (`Number` over
all rows, NaN dropped; null/empty coerce to 0 and are kept, not
filtered), one entry per pair whose two lists both have more than one
element, using the standard formula with result 0 when the denominator
is 0 or fewer than 2 paired values exist, and strength strong iff
`|r| > 0.7`, moderate iff `0.3 < |r| ≤ 0.7`, else weak (second conjunct:
the embedded `pearsonCorrelation` satisfies the claim's zero cases and
formula for all inputs). -/
theorem C4_correlations_amended (data : List Row) (cols : List DataColumn) :
    (calculateCorrelations data cols).map
        (fun e => (e.col1, e.col2, e.correlation, e.strength))
      = specCorrelationsAmended data cols ∧
    ∀ x y : List ℚ, pearsonCorrelation x y = pearsonClaim x y := by
  constructor
  · unfold calculateCorrelations specCorrelationsAmended
    rw [List.map_filterMap]
    apply List.filterMap_congr
    intro pc _
    by_cases hc : 1 < (columnNumbers data pc.1.name).length ∧
        1 < (columnNumbers data pc.2.name).length
    · rw [if_pos hc, if_pos hc, Option.map_some']
      have hmin : ¬ min (columnNumbers data pc.1.name).length
          (columnNumbers data pc.2.name).length < 2 := by
        rcases hc with ⟨ha, hb⟩
        omega
      have hcorr : ∀ st : Strength, CorrEntry.correlation
          { col1 := pc.1.name, col2 := pc.2.name
            num := pearsonNum (columnNumbers data pc.1.name) (columnNumbers data pc.2.name)
            denSq := pearsonDenSq (columnNumbers data pc.1.name) (columnNumbers data pc.2.name)
            strength := st }
          = pearsonClaim (columnNumbers data pc.1.name) (columnNumbers data pc.2.name) := by
        intro st
        unfold CorrEntry.correlation pearsonClaim
        rw [if_neg hmin]
      have hstr : strengthOf
            (pearsonNum (columnNumbers data pc.1.name) (columnNumbers data pc.2.name))
            (pearsonDenSq (columnNumbers data pc.1.name) (columnNumbers data pc.2.name))
          = strengthClaim
            (pearsonClaim (columnNumbers data pc.1.name) (columnNumbers data pc.2.name)) := by
        rw [strengthOf_spec _ _ (pearsonDenSq_nonneg _ _)]
        unfold strengthClaim
        rw [show corrValue
            (pearsonNum (columnNumbers data pc.1.name) (columnNumbers data pc.2.name))
            (pearsonDenSq (columnNumbers data pc.1.name) (columnNumbers data pc.2.name))
          = pearsonClaim (columnNumbers data pc.1.name) (columnNumbers data pc.2.name) by
            unfold corrValue pearsonClaim
            rw [if_neg hmin]]
      simp only [hcorr, hstr]
    · rw [if_neg hc, if_neg hc, Option.map_none']
  · intro x y
    exact pearsonCorrelation_eq_claim x y

/-- Data-quality insights always carry type `quality`. -/
theorem qualityInsights_types (n : ℕ) (dq : DataQuality) :
    ∀ i ∈ qualityInsights n dq, i.type = InsightType.quality := by
  intro i hi
  unfold qualityInsights at hi
  rcases List.mem_append.mp hi with h1 | h2
  · split at h1
    · simp at h1
    · split at h1
      · simp at h1
        rw [h1]
      · simp at h1
  · split at h2
    · simp at h2
      rw [h2]
    · simp at h2

/-- Per-column statistical insights carry type `anomaly` or
`distribution`. -/
theorem statInsights_types (data : List Row) (cols : List DataColumn) :
    ∀ i ∈ statInsights data cols,
      i.type = InsightType.anomaly ∨ i.type = InsightType.distribution := by
  intro i hi
  unfold statInsights at hi
  rcases List.mem_flatMap.mp hi with ⟨col, -, hcol⟩
  rcases List.mem_append.mp hcol with h1 | h2
  · left
    unfold outlierInsightFor at h1
    split at h1
    · simp at h1
    · simp only [] at h1
      split at h1
      · simp at h1
        rw [h1]
      · simp at h1
  · right
    unfold skewInsightFor at h2
    split_ifs at h2 with hc
    · simp at h2
      rw [h2]
    · simp at h2

/-- Correlation insights carry type `correlation`. -/
theorem correlationInsights_types (correlations : List CorrEntry) :
    ∀ i ∈ correlationInsights correlations, i.type = InsightType.correlation := by
  intro i hi
  unfold correlationInsights at hi
  rcases List.mem_map.mp hi with ⟨e, -, rfl⟩
  rfl

/-- No rule-based insight has type `business`. -/
theorem ruleBased_not_business (data : List Row) (P : DataProfile) :
    ∀ i ∈ ruleBasedInsights data P, i.type ≠ InsightType.business := by
  intro i hi
  unfold ruleBasedInsights at hi
  rcases List.mem_append.mp hi with h12 | h3
  · rcases List.mem_append.mp h12 with h1 | h2
    · rw [qualityInsights_types _ _ i h1]
      intro hc
      cases hc
    · rcases statInsights_types _ _ i h2 with ht | ht <;> rw [ht] <;> intro hc <;> cases hc
  · rw [correlationInsights_types _ i h3]
    intro hc
    cases hc

/-- The fallback branch of `generateBusinessInsights`: on a collaborator
error the result is exactly the (at most two) profile-derived generic
insights; the `slice(0, 5)` cap is vacuous there. -/
theorem generateBusinessInsights_error (P : DataProfile) :
    generateBusinessInsights (Except.error ()) P
      = (if 0 < (P.columns.filter (fun c => c.type == ColType.numeric)).length then
           [⟨.business, "Performance Metrics Available", .low, true⟩] else [])
        ++ (if 0 < (P.columns.filter (fun c => c.type == ColType.categorical)).length then
           [⟨.business, "Segmentation Opportunities", .low, true⟩] else []) := by
  unfold generateBusinessInsights
  apply List.take_of_length_le
  split_ifs <;> simp

/-- C7 (amended): whenever the narrative collaborator call THROWS (error
or timeout), insight generation still returns without throwing: the
result contains all rule-based insights plus the generic fallback
business insights derived purely from the profile — exactly one
"Performance Metrics Available" iff a numeric column exists and one
"Segmentation Opportunities" iff a categorical column exists, each with
severity low and type business, at most two in total — and the number of
business-type insights in the result never exceeds 5.  (A malformed or
empty but SUCCESSFUL response instead yields no business insights at all
and no fallback — see the counterexample.) -/
theorem C7_collaborator_failure_amended (host : Host) (data : List Row) (h : data ≠ []) :
    ∃ P l, profileData host data = some P ∧
      generateAIInsights (Except.error ()) host data = some l ∧
      (∀ i ∈ ruleBasedInsights data P, i ∈ l) ∧
      (∀ i ∈ generateBusinessInsights (Except.error ()) P, i ∈ l) ∧
      (∀ i ∈ generateBusinessInsights (Except.error ()) P,
        i.severity = Severity.low ∧ i.type = InsightType.business) ∧
      ((∃ c ∈ P.columns, c.type = ColType.numeric) ↔
        (⟨.business, "Performance Metrics Available", .low, true⟩ : AIInsight)
          ∈ generateBusinessInsights (Except.error ()) P) ∧
      ((∃ c ∈ P.columns, c.type = ColType.categorical) ↔
        (⟨.business, "Segmentation Opportunities", .low, true⟩ : AIInsight)
          ∈ generateBusinessInsights (Except.error ()) P) ∧
      (generateBusinessInsights (Except.error ()) P).length ≤ 2 ∧
      l.countP (fun i => i.type == InsightType.business) ≤ 5 := by
  obtain ⟨r₀, rest, rfl⟩ : ∃ r₀ rest, data = r₀ :: rest := by
    cases data with
    | nil => exact absurd rfl h
    | cons a t => exact ⟨a, t, rfl⟩
  set data := r₀ :: rest
  obtain ⟨P, hP⟩ : ∃ P, profileData host data = some P := ⟨_, rfl⟩
  refine ⟨P, (ruleBasedInsights data P
      ++ generateBusinessInsights (Except.error ()) P).insertionSort
      (fun a b => severityRank b.severity ≤ severityRank a.severity),
    hP, ?_, ?_, ?_, ?_, ?_, ?_, ?_, ?_⟩
  · unfold generateAIInsights
    rw [hP, Option.map_some']
  · intro i hi
    rw [List.mem_insertionSort]
    exact List.mem_append_left _ hi
  · intro i hi
    rw [List.mem_insertionSort]
    exact List.mem_append_right _ hi
  · intro i hi
    rw [generateBusinessInsights_error] at hi
    rcases List.mem_append.mp hi with h1 | h2
    · split_ifs at h1 with hc
      · simp at h1
        rw [h1]
        exact ⟨rfl, rfl⟩
      · simp at h1
    · split_ifs at h2 with hc
      · simp at h2
        rw [h2]
        exact ⟨rfl, rfl⟩
      · simp at h2
  · rw [generateBusinessInsights_error]
    constructor
    · rintro ⟨c, hc, ht⟩
      apply List.mem_append_left
      rw [if_pos (List.length_pos.mpr (fun hnil => ?_))]
      · exact List.mem_singleton.mpr rfl
      · have : c ∈ P.columns.filter (fun c => c.type == ColType.numeric) :=
          List.mem_filter.mpr ⟨hc, by simp [ht]⟩
        rw [hnil] at this
        cases this
    · intro hmem
      rcases List.mem_append.mp hmem with h1 | h2
      · split_ifs at h1 with hc
        · rcases List.length_pos.mp hc with -
          have hex : ∃ c, c ∈ P.columns.filter (fun c => c.type == ColType.numeric) :=
            List.exists_mem_of_length_pos hc
          rcases hex with ⟨c, hcf⟩
          rcases List.mem_filter.mp hcf with ⟨hcm, hct⟩
          exact ⟨c, hcm, by simpa using hct⟩
        · simp at h1
      · split_ifs at h2 with hc
        · simp at h2
        · simp at h2
  · rw [generateBusinessInsights_error]
    constructor
    · rintro ⟨c, hc, ht⟩
      apply List.mem_append_right
      rw [if_pos (List.length_pos.mpr (fun hnil => ?_))]
      · exact List.mem_singleton.mpr rfl
      · have : c ∈ P.columns.filter (fun c => c.type == ColType.categorical) :=
          List.mem_filter.mpr ⟨hc, by simp [ht]⟩
        rw [hnil] at this
        cases this
    · intro hmem
      rcases List.mem_append.mp hmem with h1 | h2
      · split_ifs at h1 with hc
        · simp at h1
        · simp at h1
      · split_ifs at h2 with hc
        · have hex : ∃ c, c ∈ P.columns.filter (fun c => c.type == ColType.categorical) :=
            List.exists_mem_of_length_pos hc
          rcases hex with ⟨c, hcf⟩
          rcases List.mem_filter.mp hcf with ⟨hcm, hct⟩
          exact ⟨c, hcm, by simpa using hct⟩
        · simp at h2
  · rw [generateBusinessInsights_error]
    rw [List.length_append]
    split_ifs <;> simp
  · have hperm := List.perm_insertionSort
      (fun a b : AIInsight => severityRank b.severity ≤ severityRank a.severity)
      (ruleBasedInsights data P ++ generateBusinessInsights (Except.error ()) P)
    rw [hperm.countP_eq, List.countP_append]
    have h0 : (ruleBasedInsights data P).countP
        (fun i => i.type == InsightType.business) = 0 := by
      rw [List.countP_eq_zero]
      intro i hi
      simp only [beq_iff_eq, decide_eq_true_eq]
      exact ruleBased_not_business data P i hi
    have h2 : (generateBusinessInsights (Except.error ()) P).countP
        (fun i => i.type == InsightType.business)
        ≤ (generateBusinessInsights (Except.error ()) P).length :=
      List.countP_le_length _
    have h3 : (generateBusinessInsights (Except.error ()) P).length ≤ 2 := by
      rw [generateBusinessInsights_error, List.length_append]
      split_ifs <;> simp
    omega

/-- C7 witness: the amended theorem applied to the concrete two-row
single-numeric-column dataset. -/
theorem C7_witness :
    rowsNumericPair ≠ [] ∧
    (∃ P l, profileData hostNone rowsNumericPair = some P ∧
      generateAIInsights (Except.error ()) hostNone rowsNumericPair = some l ∧
      (∀ i ∈ ruleBasedInsights rowsNumericPair P, i ∈ l) ∧
      (∀ i ∈ generateBusinessInsights (Except.error ()) P, i ∈ l) ∧
      (∀ i ∈ generateBusinessInsights (Except.error ()) P,
        i.severity = Severity.low ∧ i.type = InsightType.business) ∧
      ((∃ c ∈ P.columns, c.type = ColType.numeric) ↔
        (⟨.business, "Performance Metrics Available", .low, true⟩ : AIInsight)
          ∈ generateBusinessInsights (Except.error ()) P) ∧
      ((∃ c ∈ P.columns, c.type = ColType.categorical) ↔
        (⟨.business, "Segmentation Opportunities", .low, true⟩ : AIInsight)
          ∈ generateBusinessInsights (Except.error ()) P) ∧
      (generateBusinessInsights (Except.error ()) P).length ≤ 2 ∧
      l.countP (fun i => i.type == InsightType.business) ≤ 5) :=
  ⟨by decide, C7_collaborator_failure_amended hostNone rowsNumericPair (by decide)⟩

/-- C7 counterexample: when the collaborator call SUCCEEDS but the
response is malformed ("hello" has no numbered lines), the parser extracts
nothing and the catch-block fallback never runs: `generateBusinessInsights`
returns `[]` even though the profile has a numeric column (which would
have produced the "Performance Metrics Available" fallback on a thrown
failure), so the final result has zero business insights — refuting the
claim's "malformed or empty response" clause. -/
theorem C7_malformed_response_counterexample :
    ∃ P l, profileData hostNone rowsNumericPair = some P ∧
      (∃ c ∈ P.columns, c.type = ColType.numeric) ∧
      generateBusinessInsights (Except.ok "hello") P = [] ∧
      generateAIInsights (Except.ok "hello") hostNone rowsNumericPair = some l ∧
      l.countP (fun i => i.type == InsightType.business) = 0 := by
  obtain ⟨P, hP⟩ : ∃ P, profileData hostNone rowsNumericPair = some P := ⟨_, rfl⟩
  have hbiz : generateBusinessInsights (Except.ok "hello") P = [] := rfl
  refine ⟨P, (ruleBasedInsights rowsNumericPair P
      ++ generateBusinessInsights (Except.ok "hello") P).insertionSort
      (fun a b => severityRank b.severity ≤ severityRank a.severity),
    hP, ?_, hbiz, ?_, ?_⟩
  · refine ⟨profileColumn hostNone rowsNumericPair "a", ?_, ?_⟩
    · have hc : (profileData hostNone rowsNumericPair).map DataProfile.columns
          = some [profileColumn hostNone rowsNumericPair "a"] := rfl
      rw [hP, Option.map_some', Option.some_inj] at hc
      rw [hc]
      exact List.mem_singleton.mpr rfl
    · show detectColumnType hostNone (columnRawValues rowsNumericPair "a")
        = ColType.numeric
      rw [detectColumnType_nat]
      decide
  · unfold generateAIInsights
    rw [hP, Option.map_some']
  · have hperm := List.perm_insertionSort
      (fun a b : AIInsight => severityRank b.severity ≤ severityRank a.severity)
      (ruleBasedInsights rowsNumericPair P ++ generateBusinessInsights (Except.ok "hello") P)
    rw [hperm.countP_eq, List.countP_append, hbiz]
    have h0 : (ruleBasedInsights rowsNumericPair P).countP
        (fun i => i.type == InsightType.business) = 0 := by
      rw [List.countP_eq_zero]
      intro i hi
      simp only [beq_iff_eq, decide_eq_true_eq]
      exact ruleBased_not_business rowsNumericPair P i hi
    rw [h0]
    rfl

/-- Every bar candidate has priority 8. -/
theorem barRecsGrouped_priority (n : ℕ) (cats : List DataColumn) :
    ∀ c ∈ barRecsGrouped n cats, c.priority = 8 := by
  intro c hc
  unfold barRecsGrouped at hc
  rcases List.mem_flatMap.mp hc with ⟨col, -, hcol⟩
  split at hcol
  · cases hcol
  · rw [List.mem_singleton.mp hcol]
    rfl

/-- Filtering any priority class out of the source's interleaved bar/pie
candidate list gives the same result as filtering the bars-then-pies
grouped list: bars all have priority 8 and pies priority 6, so no class
mixes the two families. -/
theorem barPie_filter_split (n k : ℕ) :
    ∀ cats : List DataColumn,
      (barPieRecs n cats).filter (fun c => c.priority == k)
        = (barRecsGrouped n cats).filter (fun c => c.priority == k)
          ++ (pieRecsGrouped n cats).filter (fun c => c.priority == k)
  | [] => rfl
  | col :: t => by
    have ih := barPie_filter_split n k t
    rcases hdist : col.distribution with _ | dist
    · have h1 : barPieRecs n (col :: t) = barPieRecs n t := by
        simp [barPieRecs, hdist]
      have h2 : barRecsGrouped n (col :: t) = barRecsGrouped n t := by
        simp [barRecsGrouped, hdist]
      have h3 : pieRecsGrouped n (col :: t) = pieRecsGrouped n t := by
        simp [pieRecsGrouped, hdist]
      rw [h1, h2, h3, ih]
    · have hip : ∀ c ∈ (if col.uniqueValues ≤ 8 then [mkPieRec n col dist] else []),
          c.priority = 6 := by
        split_ifs with h
        · intro c hc
          rw [List.mem_singleton.mp hc]
          rfl
        · intro c hc
          cases hc
      have h1 : barPieRecs n (col :: t)
          = [mkBarRec n col dist]
            ++ (if col.uniqueValues ≤ 8 then [mkPieRec n col dist] else [])
            ++ barPieRecs n t := by
        simp [barPieRecs, hdist]
      have h2 : barRecsGrouped n (col :: t)
          = [mkBarRec n col dist] ++ barRecsGrouped n t := by
        simp [barRecsGrouped, hdist]
      have h3 : pieRecsGrouped n (col :: t)
          = (if col.uniqueValues ≤ 8 then [mkPieRec n col dist] else [])
            ++ pieRecsGrouped n t := by
        simp [pieRecsGrouped, hdist]
      have hcomm : ((if col.uniqueValues ≤ 8 then [mkPieRec n col dist] else []).filter
              (fun c => c.priority == k))
            ++ (barRecsGrouped n t).filter (fun c => c.priority == k)
          = (barRecsGrouped n t).filter (fun c => c.priority == k)
            ++ (if col.uniqueValues ≤ 8 then [mkPieRec n col dist] else []).filter
              (fun c => c.priority == k) := by
        by_cases hk : k = 6
        · have hb : (barRecsGrouped n t).filter (fun c => c.priority == k) = [] := by
            rw [List.filter_eq_nil_iff]
            intro c hc
            have h8 := barRecsGrouped_priority n t c hc
            simp [h8, hk]
          rw [hb, List.append_nil, List.nil_append]
        · have hpnil : (if col.uniqueValues ≤ 8 then [mkPieRec n col dist] else []).filter
              (fun c => c.priority == k) = [] := by
            rw [List.filter_eq_nil_iff]
            intro c hc
            have h6 := hip c hc
            simp only [h6, beq_iff_eq]
            omega
          rw [hpnil, List.append_nil, List.nil_append]
      rw [h1, h2, h3]
      simp only [List.filter_append]
      rw [ih, List.append_assoc, List.append_assoc]
      congr 1
      rw [← List.append_assoc, ← List.append_assoc, hcomm]

/-- C8: `generateChartRecommendations` returns the stable descending
priority sort of the candidate list truncated to 8 entries: at most 8
recommendations, sorted by priority descending, every priority class kept
verbatim in candidate-generation order (stability = deterministic
tie-break), and the source's interleaved per-column bar/pie generation
sorts to exactly the same output as the claim's family-grouped order
(histograms, bars, pies, lines, scatters, heatmaps, boxes). -/
theorem C8_chart_recommendations (host : Host) (data : List Row)
    (cand gcand : List ChartRec)
    (hc : chartCandidates host data = some cand)
    (hg : chartCandidatesGrouped host data = some gcand) :
    generateChartRecommendations host data
        = some ((cand.insertionSort (fun a b => b.priority ≤ a.priority)).take 8) ∧
    ((cand.insertionSort (fun a b => b.priority ≤ a.priority)).take 8).length ≤ 8 ∧
    ((cand.insertionSort (fun a b => b.priority ≤ a.priority)).take 8).Sorted
        (fun a b => b.priority ≤ a.priority) ∧
    (∀ k : ℕ, (cand.insertionSort (fun a b => b.priority ≤ a.priority)).filter
        (fun c => c.priority == k) = cand.filter (fun c => c.priority == k)) ∧
    cand.insertionSort (fun a b => b.priority ≤ a.priority)
      = gcand.insertionSort (fun a b => b.priority ≤ a.priority) := by
  haveI : IsTotal ChartRec (fun a b => b.priority ≤ a.priority) :=
    ⟨fun a b => le_total b.priority a.priority⟩
  haveI : IsTrans ChartRec (fun a b => b.priority ≤ a.priority) :=
    ⟨fun a b c h1 h2 => le_trans h2 h1⟩
  have hstab : ∀ (l : List ChartRec) (k : ℕ),
      (l.insertionSort (fun a b => b.priority ≤ a.priority)).filter
        (fun c => c.priority == k) = l.filter (fun c => c.priority == k) := by
    intro l k
    exact filter_insertionSort (fun a b => b.priority ≤ a.priority)
      (fun c => c.priority == k)
      (fun a b ha hb => by
        have ha' : a.priority = k := by simpa using ha
        have hb' : b.priority = k := by simpa using hb
        exact le_of_eq (hb'.trans ha'.symm)) l
  have hclass : ∀ k : ℕ, cand.filter (fun c => c.priority == k)
      = gcand.filter (fun c => c.priority == k) := by
    intro k
    unfold chartCandidates at hc
    unfold chartCandidatesGrouped at hg
    rcases hprof : profileData host data with _ | profile
    · rw [hprof] at hc
      simp at hc
    · rw [hprof] at hc hg
      simp only [Option.some_bind] at hc hg
      rcases hh : histogramRecs data
          (profile.columns.filter (fun c => c.type == ColType.numeric)) with _ | hists
      · rw [hh] at hc
        simp at hc
      · rw [hh] at hc hg
        simp only [Option.map_some', Option.some_inj] at hc hg
        rw [← hc, ← hg]
        simp only [List.filter_append]
        rw [barPie_filter_split]
        simp [List.append_assoc]
  refine ⟨?_, ?_, ?_, hstab cand, ?_⟩
  · unfold generateChartRecommendations
    rw [hc, Option.map_some']
  · rw [List.length_take]
    exact min_le_left _ _
  · exact (List.sorted_insertionSort _ _).sublist (List.take_sublist _ _)
  · refine sorted_eq_of_key_filter_eq (fun c : ChartRec => c.priority) _ _
      (List.sorted_insertionSort _ _) (List.sorted_insertionSort _ _) ?_
    intro k
    rw [hstab cand k, hstab gcand k]
    exact hclass k

/-- C8 witness: the theorem applied to the concrete one-categorical-column
dataset, whose candidate list is a bar chart (priority 8) followed by a
pie chart (priority 6) in both the interleaved and the grouped order. -/
theorem C8_witness :
    chartCandidates hostNone rowsCat
        = some [mkBarRec 4 colC distC, mkPieRec 4 colC distC] ∧
    chartCandidatesGrouped hostNone rowsCat
        = some [mkBarRec 4 colC distC, mkPieRec 4 colC distC] ∧
    (generateChartRecommendations hostNone rowsCat
        = some ((([mkBarRec 4 colC distC, mkPieRec 4 colC distC] : List ChartRec).insertionSort
            (fun a b => b.priority ≤ a.priority)).take 8) ∧
     ((([mkBarRec 4 colC distC, mkPieRec 4 colC distC] : List ChartRec).insertionSort
         (fun a b => b.priority ≤ a.priority)).take 8).length ≤ 8 ∧
     ((([mkBarRec 4 colC distC, mkPieRec 4 colC distC] : List ChartRec).insertionSort
         (fun a b => b.priority ≤ a.priority)).take 8).Sorted
         (fun a b => b.priority ≤ a.priority) ∧
     (∀ k : ℕ, (([mkBarRec 4 colC distC, mkPieRec 4 colC distC] : List ChartRec).insertionSort
         (fun a b => b.priority ≤ a.priority)).filter (fun c => c.priority == k)
       = ([mkBarRec 4 colC distC, mkPieRec 4 colC distC] : List ChartRec).filter
           (fun c => c.priority == k)) ∧
     ([mkBarRec 4 colC distC, mkPieRec 4 colC distC] : List ChartRec).insertionSort
         (fun a b => b.priority ≤ a.priority)
       = ([mkBarRec 4 colC distC, mkPieRec 4 colC distC] : List ChartRec).insertionSort
           (fun a b => b.priority ≤ a.priority)) := by
  have hcolC : profileColumn hostNone rowsCat "c" = colC := by
    have htype : detectColumnType hostNone (columnRawValues rowsCat "c")
        = ColType.categorical := by
      rw [detectColumnType_nat]
      decide
    unfold profileColumn
    simp only []
    rw [htype]
    decide
  have hprof : profileData hostNone rowsCat = some
      ⟨rowsCat.length, 1, [profileColumn hostNone rowsCat "c"],
       ⟨calculateCompleteness rowsCat.length [profileColumn hostNone rowsCat "c"],
        findDuplicateRows rowsCat,
        detectOutliers rowsCat ([profileColumn hostNone rowsCat "c"].filter
          (fun c => c.type == ColType.numeric))⟩,
       calculateCorrelations rowsCat ([profileColumn hostNone rowsCat "c"].filter
         (fun c => c.type == ColType.numeric))⟩ := rfl
  have hc : chartCandidates hostNone rowsCat
      = some [mkBarRec 4 colC distC, mkPieRec 4 colC distC] := by
    unfold chartCandidates
    rw [hprof, hcolC]
    rfl
  have hg : chartCandidatesGrouped hostNone rowsCat
      = some [mkBarRec 4 colC distC, mkPieRec 4 colC distC] := by
    unfold chartCandidatesGrouped
    rw [hprof, hcolC]
    rfl
  exact ⟨hc, hg, C8_chart_recommendations hostNone rowsCat _ _ hc hg⟩

/-- Row lookup ignores an erased field with a different key. -/
theorem getField_eraseField (f c : String) (hcf : c ≠ f) :
    ∀ r : Row, getField (eraseField f r) c = getField r c := by
  intro r
  unfold getField eraseField
  induction r with
  | nil => rfl
  | cons a t ih =>
    rw [List.filter_cons]
    rcases haf : (a.1 != f) with _ | _
    · have haf' : a.1 = f := by simpa using haf
      have hac : ¬ (a.1 == c) = true := by
        rw [haf', beq_iff_eq]
        exact fun h => hcf h.symm
      rw [if_neg Bool.false_ne_true]
      rw [@List.find?_cons_of_neg _ (fun p => p.1 == c) a t hac]
      exact ih
    · rw [if_pos rfl]
      rcases hac : (a.1 == c) with _ | _
      · have hac' : ¬ (a.1 == c) = true := by
          rw [hac]
          exact Bool.false_ne_true
        rw [@List.find?_cons_of_neg _ (fun p => p.1 == c) a
            (List.filter (fun p => p.1 != f) t) hac',
          @List.find?_cons_of_neg _ (fun p => p.1 == c) a t hac']
        exact ih
      · rw [@List.find?_cons_of_pos _ (fun p => p.1 == c) a
            (List.filter (fun p => p.1 != f) t) hac,
          @List.find?_cons_of_pos _ (fun p => p.1 == c) a t hac]

/-- `Number(row[k])` ignores an erased field with a different key. -/
theorem fieldNumber_eraseField (f c : String) (hcf : c ≠ f) (r : Row) :
    fieldNumber (eraseField f r) c = fieldNumber r c := by
  unfold fieldNumber
  rw [getField_eraseField f c hcf r]

/-- The heatmap category key ignores an erased field with a different
key. -/
theorem heatKey_eraseField (f c : String) (hcf : c ≠ f) (r : Row) :
    heatKey (eraseField f r) c = heatKey r c := by
  unfold heatKey
  rw [getField_eraseField f c hcf r]

/-- `mapM` over `Option` respects pointwise equality on members. -/
theorem mapM_option_congr {α β : Type} (g h : α → Option β) :
    ∀ l : List α, (∀ a ∈ l, g a = h a) → l.mapM g = l.mapM h := by
  intro l
  induction l with
  | nil => intro _; rfl
  | cons a t ih =>
    intro H
    rw [List.mapM_cons, List.mapM_cons, H a (List.mem_cons_self a t),
      ih (fun x hx => H x (List.mem_cons_of_mem a hx))]

/-- `flatMap` respects pointwise equality on members. -/
theorem flatMap_congr_mem {α β : Type} (g h : α → List β) :
    ∀ l : List α, (∀ a ∈ l, g a = h a) → l.flatMap g = l.flatMap h := by
  intro l
  induction l with
  | nil => intro _; rfl
  | cons a t ih =>
    intro H
    rw [List.flatMap_cons, List.flatMap_cons, H a (List.mem_cons_self a t),
      ih (fun x hx => H x (List.mem_cons_of_mem a hx))]

/-- Both components of a nested-loop pair come from the list. -/
theorem pairsAfter_mem {α : Type} :
    ∀ (l : List α) (pc : α × α), pc ∈ pairsAfter l → pc.1 ∈ l ∧ pc.2 ∈ l
  | [] => by
    intro pc h
    cases h
  | x :: xs => by
    intro pc h
    unfold pairsAfter at h
    rcases List.mem_append.mp h with h1 | h2
    · rcases List.mem_map.mp h1 with ⟨y, hy, rfl⟩
      exact ⟨List.mem_cons_self _ _, List.mem_cons_of_mem _ hy⟩
    · have hm := pairsAfter_mem xs pc h2
      exact ⟨List.mem_cons_of_mem _ hm.1, List.mem_cons_of_mem _ hm.2⟩

/-- A column's non-null value list ignores an erased foreign field. -/
theorem columnRawValues_erase (f c : String) (hcf : c ≠ f) (data : List Row) :
    columnRawValues (data.map (eraseField f)) c = columnRawValues data c := by
  unfold columnRawValues
  rw [List.filterMap_map]
  apply List.filterMap_congr
  intro r _
  simp only [Function.comp_apply]
  rw [getField_eraseField f c hcf r]

/-- A column's coerced number list ignores an erased foreign field. -/
theorem columnNumbers_erase (f c : String) (hcf : c ≠ f) (data : List Row) :
    columnNumbers (data.map (eraseField f)) c = columnNumbers data c := by
  unfold columnNumbers
  rw [List.filterMap_map]
  apply List.filterMap_congr
  intro r _
  simp only [Function.comp_apply]
  rw [fieldNumber_eraseField f c hcf r]

/-- Column profiling ignores an erased foreign field. -/
theorem profileColumn_erase (host : Host) (f c : String) (hcf : c ≠ f) (data : List Row) :
    profileColumn host (data.map (eraseField f)) c = profileColumn host data c := by
  unfold profileColumn
  rw [columnRawValues_erase f c hcf data, List.length_map]

/-- The correlation table ignores an erased field foreign to every listed
column. -/
theorem calculateCorrelations_erase (f : String) (data : List Row)
    (cols : List DataColumn) (H : ∀ c ∈ cols, c.name ≠ f) :
    calculateCorrelations (data.map (eraseField f)) cols
      = calculateCorrelations data cols := by
  unfold calculateCorrelations
  apply List.filterMap_congr
  intro pc hpc
  rw [columnNumbers_erase f pc.1.name (H _ (pairsAfter_mem cols pc hpc).1) data,
    columnNumbers_erase f pc.2.name (H _ (pairsAfter_mem cols pc hpc).2) data]

/-- The histogram ignores an erased foreign field. -/
theorem createHistogram_erase (f c : String) (hcf : c ≠ f) (data : List Row) :
    createHistogram (data.map (eraseField f)) c = createHistogram data c := by
  unfold createHistogram
  rw [columnNumbers_erase f c hcf data]

/-- The time series ignores an erased field foreign to both columns. -/
theorem createTimeSeries_erase (host : Host) (f dc vc : String)
    (hdc : dc ≠ f) (hvc : vc ≠ f) (data : List Row) :
    createTimeSeries host (data.map (eraseField f)) dc vc
      = createTimeSeries host data dc vc := by
  unfold createTimeSeries
  rw [List.filter_map, List.map_map]
  simp only [Function.comp_def, getField_eraseField f dc hdc,
    getField_eraseField f vc hvc, fieldNumber_eraseField f vc hvc]

/-- The scatter plot ignores an erased field foreign to both columns. -/
theorem createScatterPlot_erase (f c1 c2 : String)
    (h1 : c1 ≠ f) (h2 : c2 ≠ f) (data : List Row) :
    createScatterPlot (data.map (eraseField f)) c1 c2
      = createScatterPlot data c1 c2 := by
  unfold createScatterPlot
  rw [List.filter_map, List.map_map]
  simp only [Function.comp_def, getField_eraseField f c1 h1,
    getField_eraseField f c2 h2, fieldNumber_eraseField f c1 h1,
    fieldNumber_eraseField f c2 h2]

/-- The heatmap ignores an erased field foreign to both columns. -/
theorem createHeatmap_erase (f cat vc : String)
    (hcat : cat ≠ f) (hvc : vc ≠ f) (data : List Row) :
    createHeatmap (data.map (eraseField f)) cat vc = createHeatmap data cat vc := by
  unfold createHeatmap
  rw [List.foldl_map]
  simp only [heatKey_eraseField f cat hcat, fieldNumber_eraseField f vc hvc]

/-- The box plot ignores an erased field foreign to both columns. -/
theorem createBoxPlot_erase (f cat vc : String)
    (hcat : cat ≠ f) (hvc : vc ≠ f) (data : List Row) :
    createBoxPlot (data.map (eraseField f)) cat vc = createBoxPlot data cat vc := by
  unfold createBoxPlot
  rw [List.foldl_map]
  simp only [heatKey_eraseField f cat hcat, fieldNumber_eraseField f vc hvc]

/-- A histogram candidate ignores an erased foreign field. -/
theorem mkHistRec_erase (f : String) (data : List Row) (col : DataColumn)
    (h : col.name ≠ f) :
    mkHistRec (data.map (eraseField f)) col = mkHistRec data col := by
  unfold mkHistRec
  rw [createHistogram_erase f col.name h data]

/-- The histogram candidate family ignores an erased field foreign to
every listed column. -/
theorem histogramRecs_erase (f : String) (data : List Row)
    (nums : List DataColumn) (H : ∀ c ∈ nums, c.name ≠ f) :
    histogramRecs (data.map (eraseField f)) nums = histogramRecs data nums := by
  unfold histogramRecs
  apply mapM_option_congr
  intro col hcol
  exact mkHistRec_erase f data col (H col (List.mem_of_mem_filter hcol))

/-- The time-series candidate family ignores an erased field foreign to
every listed column. -/
theorem lineRecs_erase (host : Host) (f : String) (data : List Row)
    (dts nums : List DataColumn)
    (H1 : ∀ c ∈ dts, c.name ≠ f) (H2 : ∀ c ∈ nums, c.name ≠ f) :
    lineRecs host (data.map (eraseField f)) dts nums = lineRecs host data dts nums := by
  unfold lineRecs
  apply flatMap_congr_mem
  intro dc hdc
  apply flatMap_congr_mem
  intro nc hnc
  rw [createTimeSeries_erase host f dc.name nc.name (H1 dc hdc) (H2 nc hnc) data]

/-- The scatter candidate family ignores an erased field foreign to every
listed column. -/
theorem scatterRecs_erase (f : String) (data : List Row)
    (correlations : List CorrEntry) (nums : List DataColumn)
    (H : ∀ c ∈ nums, c.name ≠ f) :
    scatterRecs (data.map (eraseField f)) correlations nums
      = scatterRecs data correlations nums := by
  unfold scatterRecs
  apply flatMap_congr_mem
  intro pc hpc
  rw [createScatterPlot_erase f pc.1.name pc.2.name
    (H _ (pairsAfter_mem nums pc hpc).1) (H _ (pairsAfter_mem nums pc hpc).2) data]

/-- The heatmap candidate family ignores an erased field foreign to every
listed column. -/
theorem heatmapRecs_erase (f : String) (data : List Row)
    (cats nums : List DataColumn)
    (H1 : ∀ c ∈ cats, c.name ≠ f) (H2 : ∀ c ∈ nums, c.name ≠ f) :
    heatmapRecs (data.map (eraseField f)) cats nums = heatmapRecs data cats nums := by
  unfold heatmapRecs
  apply flatMap_congr_mem
  intro cat hcat
  apply flatMap_congr_mem
  intro num hnum
  rw [createHeatmap_erase f cat.name num.name
    (H1 cat (List.take_subset 2 cats hcat)) (H2 num (List.take_subset 2 nums hnum)) data]

/-- The box-plot candidate family ignores an erased field foreign to every
listed column. -/
theorem boxRecs_erase (f : String) (data : List Row)
    (cats nums : List DataColumn)
    (H1 : ∀ c ∈ cats, c.name ≠ f) (H2 : ∀ c ∈ nums, c.name ≠ f) :
    boxRecs (data.map (eraseField f)) cats nums = boxRecs data cats nums := by
  unfold boxRecs
  apply flatMap_congr_mem
  intro cat hcat
  apply flatMap_congr_mem
  intro num hnum
  rw [createBoxPlot_erase f cat.name num.name
    (H1 cat (List.take_subset 2 cats hcat)) (H2 num (List.take_subset 2 nums hnum)) data]

/-- C10: for a non-empty dataset, the profile's columns are exactly the
first record's keys in that record's key order — `totalColumns` is the
first record's key count, no column is named after a field `f` absent
from the first record, and erasing such a field `f` from every record
changes neither the columns (hence no nullCount), nor the completeness,
nor the correlations, nor the chart recommendations. -/
theorem C10_first_record_schema (host : Host) (f : String) (r₀ : Row)
    (rest : List Row) (hf : f ∉ r₀.map Prod.fst) :
    ∃ P P', profileData host (r₀ :: rest) = some P ∧
      profileData host ((r₀ :: rest).map (eraseField f)) = some P' ∧
      P.columns.map DataColumn.name = r₀.map Prod.fst ∧
      P.totalColumns = (r₀.map Prod.fst).length ∧
      (∀ c ∈ P.columns, c.name ≠ f) ∧
      P'.columns = P.columns ∧
      P'.totalColumns = P.totalColumns ∧
      P'.dataQuality.completeness = P.dataQuality.completeness ∧
      P'.correlations = P.correlations ∧
      generateChartRecommendations host ((r₀ :: rest).map (eraseField f))
        = generateChartRecommendations host (r₀ :: rest) := by
  have hr0 : eraseField f r₀ = r₀ := by
    unfold eraseField
    rw [List.filter_eq_self]
    intro p hp
    rw [bne_iff_ne]
    intro h
    exact hf (h ▸ List.mem_map_of_mem Prod.fst hp)
  have hP : profileData host (r₀ :: rest) = some
      ⟨(r₀ :: rest).length, (r₀.map Prod.fst).length,
       (r₀.map Prod.fst).map (profileColumn host (r₀ :: rest)),
       ⟨calculateCompleteness (r₀ :: rest).length
          ((r₀.map Prod.fst).map (profileColumn host (r₀ :: rest))),
        findDuplicateRows (r₀ :: rest),
        detectOutliers (r₀ :: rest)
          (((r₀.map Prod.fst).map (profileColumn host (r₀ :: rest))).filter
            (fun c => c.type == ColType.numeric))⟩,
       calculateCorrelations (r₀ :: rest)
         (((r₀.map Prod.fst).map (profileColumn host (r₀ :: rest))).filter
           (fun c => c.type == ColType.numeric))⟩ := rfl
  have hP' : profileData host ((r₀ :: rest).map (eraseField f)) = some
      ⟨((r₀ :: rest).map (eraseField f)).length,
       ((eraseField f r₀).map Prod.fst).length,
       ((eraseField f r₀).map Prod.fst).map
         (profileColumn host ((r₀ :: rest).map (eraseField f))),
       ⟨calculateCompleteness ((r₀ :: rest).map (eraseField f)).length
          (((eraseField f r₀).map Prod.fst).map
            (profileColumn host ((r₀ :: rest).map (eraseField f)))),
        findDuplicateRows ((r₀ :: rest).map (eraseField f)),
        detectOutliers ((r₀ :: rest).map (eraseField f))
          ((((eraseField f r₀).map Prod.fst).map
              (profileColumn host ((r₀ :: rest).map (eraseField f)))).filter
            (fun c => c.type == ColType.numeric))⟩,
       calculateCorrelations ((r₀ :: rest).map (eraseField f))
         ((((eraseField f r₀).map Prod.fst).map
             (profileColumn host ((r₀ :: rest).map (eraseField f)))).filter
           (fun c => c.type == ColType.numeric))⟩ := rfl
  have hnof : ∀ c ∈ (r₀.map Prod.fst).map (profileColumn host (r₀ :: rest)),
      c.name ≠ f := by
    intro c hc h
    rcases List.mem_map.mp hc with ⟨k, hk, rfl⟩
    have hk' : k = f := h
    exact hf (hk' ▸ hk)
  have hcols : ((eraseField f r₀).map Prod.fst).map
        (profileColumn host ((r₀ :: rest).map (eraseField f)))
      = (r₀.map Prod.fst).map (profileColumn host (r₀ :: rest)) := by
    rw [hr0]
    apply List.map_congr_left
    intro k hk
    exact profileColumn_erase host f k (fun h => hf (h ▸ hk)) (r₀ :: rest)
  have hnum : ∀ c ∈ ((r₀.map Prod.fst).map (profileColumn host (r₀ :: rest))).filter
      (fun c => c.type == ColType.numeric), c.name ≠ f :=
    fun c hc => hnof c (List.mem_of_mem_filter hc)
  have hcat : ∀ c ∈ ((r₀.map Prod.fst).map (profileColumn host (r₀ :: rest))).filter
      (fun c => c.type == ColType.categorical && c.uniqueValues ≤ 20), c.name ≠ f :=
    fun c hc => hnof c (List.mem_of_mem_filter hc)
  have hdt : ∀ c ∈ ((r₀.map Prod.fst).map (profileColumn host (r₀ :: rest))).filter
      (fun c => c.type == ColType.datetime), c.name ≠ f :=
    fun c hc => hnof c (List.mem_of_mem_filter hc)
  refine ⟨_, _, hP, hP', ?_, rfl, hnof, hcols, ?_, ?_, ?_, ?_⟩
  · rw [List.map_map]
    have hid : (DataColumn.name ∘ profileColumn host (r₀ :: rest)) = id :=
      funext fun k => rfl
    rw [hid, List.map_id]
  · rw [hr0]
  · rw [List.length_map, hcols]
  · rw [hcols]
    exact calculateCorrelations_erase f (r₀ :: rest) _ hnum
  · unfold generateChartRecommendations
    have hcand : chartCandidates host ((r₀ :: rest).map (eraseField f))
        = chartCandidates host (r₀ :: rest) := by
      unfold chartCandidates
      rw [hP, hP']
      simp only [Option.some_bind]
      rw [hcols, List.length_map]
      rw [calculateCorrelations_erase f (r₀ :: rest) _ hnum,
        histogramRecs_erase f (r₀ :: rest) _ hnum,
        lineRecs_erase host f (r₀ :: rest) _ _ hdt hnum,
        scatterRecs_erase f (r₀ :: rest) _ _ hnum,
        heatmapRecs_erase f (r₀ :: rest) _ _ hcat hnum,
        boxRecs_erase f (r₀ :: rest) _ _ hcat hnum]
    rw [hcand]

/-- C10 witness: the theorem applied to a concrete two-row dataset whose
second record has an extra field `z` missing from the first record. -/
theorem C10_witness :
    ("z" ∉ ([("a", vNum 1)] : Row).map Prod.fst) ∧
    (∃ P P', profileData hostNone
        (([("a", vNum 1)] : Row) :: [[("a", vNum 2), ("z", vNum 9)]]) = some P ∧
      profileData hostNone
        ((([("a", vNum 1)] : Row) :: [[("a", vNum 2), ("z", vNum 9)]]).map
          (eraseField "z")) = some P' ∧
      P.columns.map DataColumn.name = ([("a", vNum 1)] : Row).map Prod.fst ∧
      P.totalColumns = (([("a", vNum 1)] : Row).map Prod.fst).length ∧
      (∀ c ∈ P.columns, c.name ≠ "z") ∧
      P'.columns = P.columns ∧
      P'.totalColumns = P.totalColumns ∧
      P'.dataQuality.completeness = P.dataQuality.completeness ∧
      P'.correlations = P.correlations ∧
      generateChartRecommendations hostNone
          ((([("a", vNum 1)] : Row) :: [[("a", vNum 2), ("z", vNum 9)]]).map
            (eraseField "z"))
        = generateChartRecommendations hostNone
            (([("a", vNum 1)] : Row) :: [[("a", vNum 2), ("z", vNum 9)]])) :=
  ⟨by decide, C10_first_record_schema hostNone "z" [("a", vNum 1)]
    [[("a", vNum 2), ("z", vNum 9)]] (by decide)⟩

end DataAnalysis
